import Mathlib

/-!
Verification of the Ananas kernel core against its specification.

Each subsystem relevant to a claim is shallowly embedded: the C/C++ code of
`src/kernel` is translated into executable Lean definitions (pointer-linked
structures become index-addressed stores, bit flags become boolean fields,
kernel panics via `KASSERT` become an explicit `panic` outcome), and the
claims are settled as theorems about those definitions.
-/

set_option autoImplicit false

namespace Ananas

/-- Error taxonomy of `ananas/error.h` (the constructors used by the embedded
code paths). -/
inductive ErrorCode where
  | unknown
  | noResource
  | badAddress
  | badLength
  | shortRead
  | io
  | notFound
  | busy
  | unsupported
  | outOfMemory
  deriving DecidableEq, Repr

/-! ## Scheduler (`src/kernel/kern/scheduler.c`)

A thread's `flags` bitmask is embedded as boolean fields for the two bits the
scheduler reads and writes (`THREAD_FLAG_ACTIVE`, `THREAD_FLAG_SUSPENDED`).
The global singly-linked thread list `threads` becomes a `List Thread`;
index `i`'s `next` pointer is index `i+1`, and the last entry's `next` is
`NULL` (the code wraps a `NULL` next back to the list head `threads`).
The per-CPU current thread pointer is an `Option Nat` index (`none` = NULL). -/

namespace Sched

structure Thread where
  active : Bool
  suspended : Bool
  deriving DecidableEq, Repr

/-- Result of a `schedule()` call: either a thread of the global list was
selected, or the CPU's idle thread. -/
inductive Sel where
  | thread (i : Nat)
  | idle
  deriving DecidableEq, Repr

/-- `curthread->next`, with the `if (newthread == NULL) newthread = threads`
wrap folded in: successor index, wrapping the end of the list to the head. -/
def succIdx (n j : Nat) : Nat := if j + 1 = n then 0 else j + 1

/-- `newthread->flags & (THREAD_FLAG_ACTIVE | THREAD_FLAG_SUSPENDED)` at
index `j` (out-of-range indices never arise for a well-formed ring). -/
def blockedF (ts : List Thread) (j : Nat) : Bool :=
  match ts[j]? with
  | some t => t.active || t.suspended
  | none => false

/-- One advance of the scan loop in `schedule()`: `newthread = newthread->next`
followed by the two `newthread == curthread` break checks and the
`newthread == NULL → newthread = threads` wrap.  `none` means the loop broke
with `newthread == curthread`. -/
def stepNext (n : Nat) (cur : Option Nat) (j : Nat) : Option Nat :=
  if j + 1 = n then
    -- next pointer is NULL: compare NULL with curthread, then wrap to the head
    match cur with
    | none => none
    | some c => if c = 0 then none else some 0
  else if some (j + 1) = cur then none else some (j + 1)

/-- The `while (newthread->flags & (ACTIVE | SUSPENDED))` scan of
`schedule()`, starting at index `j`.  Returns the index at which the loop
exited naturally, or `none` if it broke with `newthread == curthread`.
Fuel-indexed; `ts.length + 1` fuel is enough for the ring walk. -/
def scanFrom (ts : List Thread) (cur : Option Nat) : Nat → Nat → Option Nat
  | 0, _ => none
  | fuel + 1, j =>
    if blockedF ts j then
      match stepNext ts.length cur j with
      | none => none
      | some j1 => scanFrom ts cur fuel j1
    else some j

/-- `schedule()` of `scheduler.c`: clear the current thread's Active bit,
scan from `curthread->next` (or the list head), and either mark the found
thread Active or fall back to the idle thread when the scan came back to
`curthread`.  Returns the updated thread list and the selection. -/
def schedule (ts : List Thread) (cur : Option Nat) : List Thread × Sel :=
  let ts1 := match cur with
    | some c =>
      match ts[c]? with
      | some t => ts.set c { t with active := false }
      | none => ts
    | none => ts
  let start := match cur with
    | some c => succIdx ts1.length c
    | none => 0
  match scanFrom ts1 cur (ts1.length + 1) start with
  | none => (ts1, Sel.idle)
  | some j =>
    if some j = cur then (ts1, Sel.idle)
    else match ts1[j]? with
      | some t => (ts1.set j { t with active := true }, Sel.thread j)
      | none => (ts1, Sel.idle)

/-- A thread whose flags contain neither Active nor Suspended. -/
def runnableF (ts : List Thread) (j : Nat) : Bool :=
  match ts[j]? with
  | some t => !(t.active || t.suspended)
  | none => false

/-- Spec-side walk, following the claim's words: starting from the given
index, walk the ring looking for the first thread whose flags contain
neither Active nor Suspended; the walk ends (with no candidate) upon
returning to the starting thread `c`. -/
def specWalk (ts : List Thread) (c : Nat) : Nat → Nat → Option Nat
  | 0, _ => none
  | fuel + 1, j =>
    if j = c then none
    else if runnableF ts j then some j
    else specWalk ts c fuel (succIdx ts.length j)

/-- Spec-side selection: the first candidate reached starting from `c`'s
successor (`T.next`, or the list head if `T` has no next). -/
def specNextRunnable (ts : List Thread) (c : Nat) : Option Nat :=
  specWalk ts c (ts.length + 1) (succIdx ts.length c)

end Sched

/-- Outcome of an embedded kernel operation: a value, a propagated
`errorcode_t`, or a `KASSERT`/`panic` abort carrying its message. -/
inductive Outcome (α : Type) where
  | ok (a : α)
  | err (e : ErrorCode)
  | panicked (msg : String)
  deriving DecidableEq, Repr

/-! ## Dentry cache (`src/kernel/vfs/dentry.cpp`)

The statically allocated dentry pool becomes the `store` list (index =
dentry identity); the intrusive `dcache_inuse` / `dcache_free` queues become
lists of store indices (head of the list = head of the queue).  The
`d_flags` bitmask becomes the boolean fields `root` (`DENTRY_FLAG_ROOT`)
and `negative` (`DENTRY_FLAG_NEGATIVE`); `d_inode` becomes an `Option Nat`
inode identity, with `vfs_ref_inode`/`vfs_deref_inode` tracked in the
`inodeRC` refcount store. -/

namespace DCache

structure DEntry where
  parent : Option Nat
  name : String
  refcount : Nat
  root : Bool
  negative : Bool
  inode : Option Nat
  deriving DecidableEq, Repr

/-- A zeroed pool slot (`memset(dentry, 0, ...)` of `dcache_init`). -/
def emptyDE : DEntry :=
  { parent := none, name := "", refcount := 0, root := false,
    negative := false, inode := none }

structure Cache where
  store : List DEntry
  inuse : List Nat
  free : List Nat
  inodeRC : List Nat
  deriving DecidableEq, Repr

def getE (st : Cache) (d : Nat) : DEntry := st.store.getD d emptyDE

def setE (st : Cache) (d : Nat) (f : DEntry → DEntry) : Cache :=
  { st with store := st.store.set d (f (getE st d)) }

def refInode (st : Cache) (i : Nat) : Cache :=
  { st with inodeRC := st.inodeRC.set i (st.inodeRC.getD i 0 + 1) }

def derefInode (st : Cache) (i : Nat) : Cache :=
  { st with inodeRC := st.inodeRC.set i (st.inodeRC.getD i 0 - 1) }

/-- The `LIST_FOREACH_REVERSE_SAFE` scan of `dcache_find_entry_to_use`:
walk the in-use queue from the tail, returning the first entry (from the
tail) with `d_refcount == 0` and `DENTRY_FLAG_ROOT` clear. -/
def findVictim (st : Cache) : List Nat → Option Nat
  | [] => none
  | d :: rest =>
    match findVictim st rest with
    | some x => some x
    | none =>
      if (getE st d).refcount = 0 ∧ (getE st d).root = false then some d
      else none

/-- `dcache_find_entry_to_use()`: pop the free-list head, else evict the
victim found from the in-use tail (releasing its backing inode and removing
it from the in-use queue).  `none` models returning `NULL`. -/
def findEntryToUse (st : Cache) : Option (Nat × Cache) :=
  match st.free with
  | d :: rest => some (d, { st with free := rest })
  | [] =>
    match findVictim st st.inuse with
    | none => none
    | some d =>
      let st1 := match (getE st d).inode with
        | some i => setE (derefInode st i) d (fun e => { e with inode := none })
        | none => st
      some (d, { st1 with inuse := st1.inuse.erase d })

/-- The `LIST_FOREACH` scan of `dcache_lookup`: first in-use entry with
`d_parent == parent && strcmp(d_entry, entry) == 0`. -/
def scanInuse (st : Cache) (p : Nat) (n : String) : List Nat → Option Nat
  | [] => none
  | d :: rest =>
    if (getE st d).parent = some p ∧ (getE st d).name = n then some d
    else scanInuse st p n rest

/-- `dcache_lookup(parent, entry)`.  `ok none` models the `NULL` return for
a still-pending entry (inode `NULL`, Negative clear); `ok (some d)` is a
referenced dentry; the `KASSERT(d != nullptr, "dcache full")` on allocation
failure and the `KASSERT` of `dentry_ref` become `panicked`. -/
def dcache_lookup (st : Cache) (p : Nat) (n : String) :
    Outcome (Option Nat) × Cache :=
  match scanInuse st p n st.inuse with
  | some d =>
    if (getE st d).inode = none ∧ (getE st d).negative = false then
      (Outcome.ok none, st)
    else
      -- `++d->d_refcount`, then move to the head of the in-use queue
      let st1 := setE st d (fun e => { e with refcount := e.refcount + 1 })
      (Outcome.ok (some d), { st1 with inuse := d :: st1.inuse.erase d })
  | none =>
    match findEntryToUse st with
    | none => (Outcome.panicked "dcache full", st)
    | some (d, st1) =>
      if (getE st1 p).refcount = 0 then
        (Outcome.panicked "invalid refcount", st1)
      else
        let st2 := setE st1 p (fun e => { e with refcount := e.refcount + 1 })
        let st3 := setE st2 d (fun _ =>
          { parent := some p, name := n, refcount := 1, root := false,
            negative := false, inode := none })
        (Outcome.ok (some d), { st3 with inuse := d :: st3.inuse })

/-- `dcache_create_root_dentry(fs)` (the filesystem reference itself is not
modelled): grab a slot, set refcount 1, Root flag, name `/`, prepend to the
in-use queue. -/
def dcache_create_root_dentry (st : Cache) : Outcome Nat × Cache :=
  match findEntryToUse st with
  | none => (Outcome.panicked "out of dentries", st)
  | some (d, st1) =>
    let st2 := setE st1 d (fun e =>
      { e with refcount := 1, inode := none, root := true, negative := false,
               name := "/" })
    (Outcome.ok d, { st2 with inuse := d :: st2.inuse })

/-- `dcache_set_inode(de, inode)`: drop any existing inode ref, take a ref
on the new inode, store it and clear the Negative flag. -/
def dcache_set_inode (st : Cache) (d : Nat) (ino : Nat) : Cache :=
  let st1 := match (getE st d).inode with
    | some old => derefInode st old
    | none => st
  let st2 := refInode st1 ino
  setE st2 d (fun e => { e with inode := some ino, negative := false })

/-- `dentry_deref_locked(d)`, fuel-indexed for the recursive deref of the
parent chain.  Decrement the refcount (`KASSERT` on zero); on reaching
zero, recursively release the parent reference and clear `d_parent`.
The in-use/free queues are never touched. -/
def dentry_deref_fuel (st : Cache) : Nat → Nat → Outcome Unit × Cache
  | 0, _ => (Outcome.panicked "deref fuel exhausted", st)
  | fuel + 1, d =>
    if (getE st d).refcount = 0 then (Outcome.panicked "invalid refcount", st)
    else if (getE st d).refcount - 1 > 0 then
      (Outcome.ok (), setE st d (fun e => { e with refcount := e.refcount - 1 }))
    else
      match (getE st d).parent with
      | some p =>
        match dentry_deref_fuel
            (setE st d (fun e => { e with refcount := e.refcount - 1 }))
            fuel p with
        | (Outcome.ok _, st2) =>
          (Outcome.ok (), setE st2 d (fun e => { e with parent := none }))
        | (r, st2) => (r, st2)
      | none =>
        (Outcome.ok (), setE st d (fun e => { e with refcount := e.refcount - 1 }))

/-- `dentry_deref(de)` (the lock only brackets `dentry_deref_locked`). -/
def dentry_deref (st : Cache) (d : Nat) : Outcome Unit × Cache :=
  dentry_deref_fuel st (st.store.length + 1) d

/-! Concrete cache scenarios used to settle the dcache claims: a fresh
four-slot pool with a root dentry, a resolved child `a`, a deref of it, a
second lookup; a pending child `x` with a concurrent second caller; and
children `a`, `b` for the LRU ordering scenario. -/

def demoPool : Cache :=
  { store := List.replicate 4 emptyDE, inuse := [], free := [0, 1, 2, 3],
    inodeRC := List.replicate 8 0 }

def demoRoot : Cache := (dcache_create_root_dentry demoPool).2

def lookA1 : Outcome (Option Nat) × Cache := dcache_lookup demoRoot 0 "a"

def stA : Cache := dcache_set_inode lookA1.2 1 5

def stADeref : Cache := (dentry_deref stA 1).2

def lookA2 : Outcome (Option Nat) × Cache := dcache_lookup stADeref 0 "a"

def lookX1 : Outcome (Option Nat) × Cache := dcache_lookup demoRoot 0 "x"

def lookX2 : Outcome (Option Nat) × Cache := dcache_lookup lookX1.2 0 "x"

def stX : Cache := dcache_set_inode lookX2.2 1 7

def lookX3 : Outcome (Option Nat) × Cache := dcache_lookup stX 0 "x"

def lookB1 : Outcome (Option Nat) × Cache := dcache_lookup stA 0 "b"

def stB : Cache := dcache_set_inode lookB1.2 2 6

def lookA3 : Outcome (Option Nat) × Cache := dcache_lookup stB 0 "a"

/-- An exhausted cache (empty free-list) for the eviction scenario: slot 0
is a pinned root, slot 1 is referenced, slots 2 and 3 are zero-ref; the LRU
tail among the eligible ones is slot 3. -/
def demoFullCache : Cache :=
  { store :=
      [{ emptyDE with name := "/", refcount := 1, root := true },
       { emptyDE with parent := some 0, name := "p", refcount := 1 },
       { emptyDE with parent := some 0, name := "q", refcount := 0,
                      inode := some 2 },
       { emptyDE with parent := some 0, name := "r", refcount := 0,
                      inode := some 3 }],
    inuse := [1, 2, 3, 0], free := [], inodeRC := List.replicate 8 1 }

end DCache


/-! ## Virtual memory fault handler (`src/kernel/vm/vmfault.cpp`)

`vmspace_handle_fault` is embedded faithfully; the `vmpage_*` layer it
calls (`vmpage.cpp` is not part of the sources, only its callers) is
modelled from the spec, as is the `vfs_read` backing a `read_data` call.
VM pages live in the `vmpages` store (index = identity); physical frames in
the `frames` store (index = physical address, cell = abstract page
content); `md_map_pages` calls are logged in `mappings`. -/

namespace VM

def PAGE_SIZE : Nat := 4096

/-- `va_flags` bitmask (`VM_FLAG_READ/WRITE/EXECUTE/USER/PRIVATE/LAZY/ALLOC`)
as boolean fields. -/
structure VmFlags where
  read : Bool
  write : Bool
  exec : Bool
  user : Bool
  priv : Bool
  lazy : Bool
  alloc : Bool
  deriving DecidableEq, Repr

/-- The subset of `VM_PAGE_FLAG_*` bits the fault path uses:
`READONLY`, `PENDING`, `PRIVATE`. -/
structure VMPageFlags where
  readonly : Bool
  pending : Bool
  priv : Bool
  deriving DecidableEq, Repr

/-- `vmspace_page_flags_from_va`: the page gets `VM_PAGE_FLAG_READONLY` iff
the area's read/write bits equal exactly `VM_FLAG_READ`. -/
def pageFlagsFromVa (f : VmFlags) : Bool := f.read && !f.write

structure VMPage where
  flags : VMPageFlags
  page : Option Nat
  vaddr : Nat
  refcount : Nat
  deriving DecidableEq, Repr

structure VMArea where
  virt : Nat
  len : Nat
  flags : VmFlags
  dentry : Option Nat
  doffset : Nat
  dlength : Nat
  pages : List Nat
  deriving DecidableEq, Repr

structure VMSpace where
  areas : List VMArea
  deriving DecidableEq, Repr

/-- Modelled from the spec: a backing dentry for a file-backed area — its
inode identity, the byte size the filesystem can deliver, and an abstract
content oracle giving the page read at a byte offset. -/
structure Dentry where
  inode : Nat
  size : Nat
  content : Nat → Nat

def emptyDent : Dentry := { inode := 0, size := 0, content := fun _ => 0 }

structure VMSt where
  vmpages : List VMPage
  inodePages : List (Nat × Nat × Nat)
  frames : List Nat
  mappings : List (Nat × Nat × VmFlags)
  dentries : List Dentry

def emptyPg : VMPage :=
  { flags := { readonly := false, pending := false, priv := false },
    page := none, vaddr := 0, refcount := 0 }

def getP (st : VMSt) (id : Nat) : VMPage := st.vmpages.getD id emptyPg

def setP (st : VMSt) (id : Nat) (f : VMPage → VMPage) : VMSt :=
  { st with vmpages := st.vmpages.set id (f (getP st id)) }

def getDent (st : VMSt) (d : Nat) : Dentry := st.dentries.getD d emptyDent

/-- The abstract content of the physical frame owned by a vm page. -/
def frameVal (st : VMSt) (id : Nat) : Nat :=
  st.frames.getD ((getP st id).page.getD 0) 0

/-- Modelled from the spec: `vmpage_lookup_locked(va, inode, offs)` — find
the shared vm page registered for `(inode, offset)` on the inode's
backing-page list. -/
def vmpage_lookup_locked (st : VMSt) (ino off : Nat) : Option Nat :=
  (st.inodePages.find? (fun e => e.1 == ino && e.2.1 == off)).map
    (fun e => e.2.2)

/-- Modelled from the spec: `vmpage_create_shared(va, inode, offs, flags)` —
allocate a new shared vm page (no frame yet) and insert it into the
inode's backing-page list. -/
def vmpage_create_shared (st : VMSt) (ino off : Nat) (fl : VMPageFlags) :
    Nat × VMSt :=
  (st.vmpages.length,
   { st with
      vmpages := st.vmpages ++
        [{ flags := fl, page := none, vaddr := 0, refcount := 1 }],
      inodePages := st.inodePages ++ [(ino, off, st.vmpages.length)] })

/-- Modelled from the spec: `vmpage_create_private(flags)` — allocate a new
private vm page with its own fresh physical frame; private pages never
enter an inode list. -/
def vmpage_create_private (st : VMSt) (fl : VMPageFlags) : Nat × VMSt :=
  (st.vmpages.length,
   { st with
      vmpages := st.vmpages ++
        [{ flags := fl, page := some st.frames.length, vaddr := 0,
           refcount := 1 }],
      frames := st.frames ++ [0] })

/-- Modelled from the spec: `vmpage_link(vmpage)` — create a link vm page
aliasing the same physical frame, bumping the source's refcount. -/
def vmpage_link (st : VMSt) (src : Nat) : Nat × VMSt :=
  (st.vmpages.length,
   { (setP st src (fun pg => { pg with refcount := pg.refcount + 1 })) with
      vmpages := (setP st src
          (fun pg => { pg with refcount := pg.refcount + 1 })).vmpages ++
        [{ flags := (getP st src).flags, page := (getP st src).page,
           vaddr := 0, refcount := 1 }] })

/-- Modelled from the spec: `vmpage_copy(src, dst)` — copy the source
frame's contents into the destination's frame. -/
def vmpage_copy (st : VMSt) (src dst : Nat) : VMSt :=
  { st with
    frames := st.frames.set ((getP st dst).page.getD 0)
      (st.frames.getD ((getP st src).page.getD 0) 0) }

/-- `read_data(dentry, buf, offset, len)` of `vmfault.cpp`: seek and read
`len` bytes; a transfer of fewer than `len` bytes fails with
`ANANAS_ERROR(SHORT_READ)`.  The underlying `vfs_read` is modelled from the
spec: it transfers `min len (size - offset)` bytes. -/
def read_data (d : Dentry) (off len : Nat) : Outcome Unit :=
  if min len (d.size - off) = len then Outcome.ok ()
  else Outcome.err ErrorCode.shortRead

def vPage (virt : Nat) : Nat := virt - virt % PAGE_SIZE

def readOffOf (va : VMArea) (virt : Nat) : Nat :=
  vPage virt - va.virt + va.doffset

/-- The lookup-or-create step of the file-backed branch: find the shared
vm page for `(inode, read_off)`, else create a Pending one. -/
def lookupOrCreate (st : VMSt) (va : VMArea) (ino off : Nat) : Nat × VMSt :=
  match vmpage_lookup_locked st ino off with
  | some id => (id, st)
  | none =>
    vmpage_create_shared st ino off
      { pending := true, readonly := pageFlagsFromVa va.flags, priv := false }

/-- The pending-fill step of the file-backed branch: allocate one fresh
physical frame, read the backing page's content into it, attach it to the
shared vm page and clear Pending. -/
def fillState (b : VMSt) (dent : Dentry) (ro : Nat) (srcId : Nat) : VMSt :=
  setP
    { b with
      frames := (b.frames ++ [0]).set b.frames.length (dent.content ro) }
    srcId
    (fun pg =>
      { pg with
        page := some b.frames.length,
        flags := { pg.flags with pending := false } })

/-- The page flags given to `vmpage_create_private` on the copy path:
`VM_PAGE_FLAG_PRIVATE | vmspace_page_flags_from_va(va)`. -/
def privFl (va : VMArea) : VMPageFlags :=
  { pending := false, readonly := pageFlagsFromVa va.flags, priv := true }

/-- The tail of the file-backed branch of `vmspace_handle_fault`: share
(whole page inside the backed slice and area not Private → `vmpage_link`)
or copy (`vmpage_create_private` + `vmpage_copy`); then append the new page
to the area's page list, set `vp_vaddr` to the page-aligned fault address,
and `md_map_pages` one page with the area's flags. -/
def finishFault (st : VMSt) (va : VMArea) (virt : Nat)
    (vmpage : Nat) (read_off : Nat) : Outcome Unit × VMSt × VMArea :=
  let share := if (read_off + PAGE_SIZE ≤ va.doffset + va.dlength)
      ∧ va.flags.priv = false then
      vmpage_link st vmpage
    else
      vmpage_copy ((vmpage_create_private st
          { pending := false, readonly := pageFlagsFromVa va.flags,
            priv := true }).2) vmpage
        (vmpage_create_private st
          { pending := false, readonly := pageFlagsFromVa va.flags,
            priv := true }).1
      |> fun st2 => ((vmpage_create_private st
          { pending := false, readonly := pageFlagsFromVa va.flags,
            priv := true }).1, st2)
  let newId := share.1
  let st1 := setP share.2 newId (fun pg => { pg with vaddr := vPage virt })
  (Outcome.ok (),
   { st1 with
     mappings := st1.mappings ++
       [(vPage virt, (getP st1 newId).page.getD 0, va.flags)] },
   { va with pages := va.pages ++ [newId] })

/-- The file-backed branch (`va->va_dentry != nullptr`,
`read_off < va->va_dlength`) of `vmspace_handle_fault`: look up or create
the shared page; if Pending, allocate a frame and read the page from the
dentry (a read failure trips `KASSERT(ananas_is_success(err), "cannot deal
with error %d")`), attach the frame and clear Pending; then share or
copy. -/
def fileBackedFault (st : VMSt) (va : VMArea) (virt : Nat) (dref : Nat) :
    Outcome Unit × VMSt × VMArea :=
  let dent := getDent st dref
  let ro := readOffOf va virt
  let lc := lookupOrCreate st va dent.inode ro
  if (getP lc.2 lc.1).flags.pending then
    let fid := lc.2.frames.length
    let st2 := { lc.2 with frames := lc.2.frames ++ [0] }
    match read_data dent ro PAGE_SIZE with
    | Outcome.ok _ =>
      let st3 := { st2 with frames := st2.frames.set fid (dent.content ro) }
      let st4 := setP st3 lc.1 (fun pg =>
        { pg with page := some fid,
                  flags := { pg.flags with pending := false } })
      finishFault st4 va virt lc.1 ro
    | _ => (Outcome.panicked "cannot deal with error", st2, va)
  else
    finishFault lc.2 va virt lc.1 ro

/-- The anonymous branch: a fresh private page, zeroed under a temporary
read/write mapping, then remapped with the area's flags. -/
def anonFault (st : VMSt) (va : VMArea) (virt : Nat) :
    Outcome Unit × VMSt × VMArea :=
  let cp := vmpage_create_private st
    { pending := false, readonly := false, priv := true }
  let st1 := setP cp.2 cp.1 (fun pg => { pg with vaddr := vPage virt })
  let pa := (getP st1 cp.1).page.getD 0
  let st2 := { st1 with
    frames := st1.frames.set pa 0,
    mappings := st1.mappings ++
      [(vPage virt, pa,
        { read := true, write := true, exec := false, user := false,
          priv := false, lazy := false, alloc := false }),
       (vPage virt, pa, va.flags)] }
  (Outcome.ok (), st2, { va with pages := va.pages ++ [cp.1] })

/-- The per-area body of `vmspace_handle_fault`, entered once the walk finds
the area containing `virt`: the `KASSERT` on `ALLOC | LAZY`, then the
file-backed branch when a dentry is attached and the offset lies inside the
backed slice, else the anonymous branch. -/
def handle_fault_area (st : VMSt) (va : VMArea) (virt : Nat) :
    Outcome Unit × VMSt × VMArea :=
  if (va.flags.alloc || va.flags.lazy) = false then
    (Outcome.panicked "unexpected pagefault in area", st, va)
  else
    match va.dentry with
    | some dref =>
      if vPage virt - va.virt < va.dlength then
        fileBackedFault st va virt dref
      else
        anonFault st va virt
    | none => anonFault st va virt

/-- The `LIST_FOREACH` walk over `vs->vs_areas`: the first area containing
`virt` handles the fault; no area → `ANANAS_ERROR(BAD_ADDRESS)`. -/
def handle_fault_walk (st : VMSt) (virt : Nat) :
    List VMArea → Outcome Unit × VMSt × List VMArea
  | [] => (Outcome.err ErrorCode.badAddress, st, [])
  | va :: rest =>
    if va.virt ≤ virt ∧ virt < va.virt + va.len then
      ((handle_fault_area st va virt).1,
       (handle_fault_area st va virt).2.1,
       (handle_fault_area st va virt).2.2 :: rest)
    else
      ((handle_fault_walk st virt rest).1,
       (handle_fault_walk st virt rest).2.1,
       va :: (handle_fault_walk st virt rest).2.2)

/-- `vmspace_handle_fault(vs, virt, flags)` (the access-flag argument is
only traced by the code, so it is not a parameter of the model). -/
def vmspace_handle_fault (st : VMSt) (vs : VMSpace) (virt : Nat) :
    Outcome Unit × VMSt × VMSpace :=
  ((handle_fault_walk st virt vs.areas).1,
   (handle_fault_walk st virt vs.areas).2.1,
   { areas := (handle_fault_walk st virt vs.areas).2.2 })

/-! Concrete scenarios: an area backed by 8 KiB of data (pages `A` and
`B`), faulted from two address spaces; and a short backing file that
cannot fill a whole page. -/

def demoDentAB : Dentry :=
  { inode := 0, size := 0x2000,
    content := fun off => if off = 0 then 65 else 66 }

def demoShortDent : Dentry :=
  { inode := 1, size := 100, content := fun _ => 67 }

def demoVmSt : VMSt :=
  { vmpages := [], inodePages := [], frames := [], mappings := [],
    dentries := [demoDentAB, demoShortDent] }

def demoFlagsRU : VmFlags :=
  { read := true, write := false, exec := false, user := true,
    priv := false, lazy := true, alloc := false }

def demoArea : VMArea :=
  { virt := 0x40000000, len := 0x2000, flags := demoFlagsRU,
    dentry := some 0, doffset := 0, dlength := 0x2000, pages := [] }

def demoVs : VMSpace := { areas := [demoArea] }

def demoFault1 : Outcome Unit × VMSt × VMSpace :=
  vmspace_handle_fault demoVmSt demoVs 0x40000000

/-- A second address space with its own (page-less) copy of the same
file-backed area, faulting the same `(inode, offset)` against the global
state left by the first fault. -/
def demoFault2 : Outcome Unit × VMSt × VMSpace :=
  vmspace_handle_fault demoFault1.2.1 demoVs 0x40000000

def shortArea : VMArea :=
  { virt := 0x1000, len := 0x1000, flags := demoFlagsRU,
    dentry := some 1, doffset := 0, dlength := 0x1000, pages := [] }

def shortVs : VMSpace := { areas := [shortArea] }

def shortFault : Outcome Unit × VMSt × VMSpace :=
  vmspace_handle_fault demoVmSt shortVs 0x1000

end VM

/-! ## UHCI transfer engine (`src/kernel/dev/usb/hcd/uhci-hcd.cpp`)

TDs live in the `tds` store (index = TD identity; `AllocateTD` appends).
The `td_linkptr` becomes `link : Option Nat` (`none` = `TD_LINKPTR_T`; the
driver always sets the VF bit on real links, which is not modelled
separately).  Status bits kept: `ACTIVE`, `IOC`, `LS`; token fields: PID,
the DATA0/1 toggle (`TD_TOKEN_DATA`), max length, endpoint and address.
The global scheduled-item list and the element pointers of the six
interrupt QHs and the LS-control QH make up the rest of the state. -/

namespace UHCI

inductive PID where
  | inp
  | out
  | setup
  deriving DecidableEq, Repr

structure TD where
  link : Option Nat
  ioc : Bool
  active : Bool
  ls : Bool
  pid : PID
  toggle : Bool
  maxlen : Nat
  ep : Nat
  adr : Nat
  buffer : Nat
  deriving DecidableEq, Repr

def emptyTD : TD :=
  { link := none, ioc := false, active := false, ls := false,
    pid := PID.out, toggle := false, maxlen := 0, ep := 0, adr := 0,
    buffer := 0 }

structure HCDState where
  tds : List TD
  scheduledItems : List (Nat × Nat)
  qhInterruptElem : List (Option Nat)
  qhLsControlElem : Option Nat
  deriving DecidableEq, Repr

def getTD (st : HCDState) (i : Nat) : TD := st.tds.getD i emptyTD

def setTD (st : HCDState) (i : Nat) (f : TD → TD) : HCDState :=
  { st with tds := st.tds.set i (f (getTD st i)) }

/-- A USB transfer as far as the scheduling paths read it.  The `interval`
field is modelled from the spec (the transfer's requested period in ms for
interrupt transfers); the code never reads any such field. -/
structure Transfer where
  address : Nat
  endpoint : Nat
  read : Bool
  dataFlag : Bool
  length : Nat
  maxPacketSz0 : Nat
  lowSpeed : Bool
  dataAddr : Nat
  controlReqAddr : Nat
  interval : Nat
  deriving DecidableEq, Repr

/-- The loop body of `CreateDataTDs`, iterated `count` times starting at
iteration `i`: allocate a TD for the current chunk (chunk length
`size % max_packet_size` on the first iteration — with the `size ==
max_packet_size` special case — else a full packet), link it in front of
the chain built so far, flip the data toggle, and walk the buffer pointer
back.  Returns the final state, the chain head, the `*last_td` out
parameter (set on iteration 0) and the final `cur_data_ptr`. -/
def createLoop (mps : Nat) (pid : PID) (ls : Bool) (ep adr size : Nat) :
    Nat → Nat → HCDState → Option Nat → Nat → Bool → Option Nat
    → HCDState × Option Nat × Option Nat × Nat
  | 0, _, st, link, cur, _, last => (st, link, last, cur)
  | count + 1, i, st, link, cur, tok, last =>
    createLoop mps pid ls ep adr size count (i + 1)
      { st with tds := st.tds ++
          [{ link := link, ioc := false, active := true, ls := ls,
             pid := pid, toggle := tok,
             maxlen := if size = mps then mps
               else if i = 0 then size % mps else mps,
             ep := ep, adr := adr,
             buffer := cur - (if size = mps then mps
               else if i = 0 then size % mps else mps) }] }
      (some st.tds.length)
      (cur - (if size = mps then mps
        else if i = 0 then size % mps else mps))
      (!tok)
      (if i = 0 then some st.tds.length else last)

/-- `CreateDataTDs(hcd, data, size, max_packet_size, token, ls, token_addr,
link_td, last_td)`: build the data TD chain in reverse, the toggle of the
first-created (hardware-last) TD being `num_datapkts % 2`.  The last
component is the `KASSERT(cur_data_ptr == data, "bug")` check: `true` iff
the created chunks exactly covered the buffer. -/
def createDataTDs (st : HCDState) (data size mps : Nat) (pid : PID)
    (ls : Bool) (ep adr : Nat) (link : Option Nat) :
    HCDState × Option Nat × Option Nat × Bool :=
  ((createLoop mps pid ls ep adr size ((size + mps - 1) / mps) 0 st link
      (data + size) ((size + mps - 1) / mps % 2 == 1) none).1,
   (createLoop mps pid ls ep adr size ((size + mps - 1) / mps) 0 st link
      (data + size) ((size + mps - 1) / mps % 2 == 1) none).2.1,
   (createLoop mps pid ls ep adr size ((size + mps - 1) / mps) 0 st link
      (data + size) ((size + mps - 1) / mps % 2 == 1) none).2.2.1,
   (createLoop mps pid ls ep adr size ((size + mps - 1) / mps) 0 st link
      (data + size) ((size + mps - 1) / mps % 2 == 1) none).2.2.2 == data)

/-- `UHCI_HCD::ScheduleControlTransfer`: build HANDSHAKE (opposite
direction, DATA1, IOC, terminating link), then the optional data chain,
then the SETUP TD (PID=SETUP, DATA0, maxlen = sizeof(USB_CONTROL_REQUEST)
= 8, buffer = the control-request block); register the scheduled item with
the SETUP TD as first TD and publish the chain into the LS-control QH's
element pointer.  A failed `CreateDataTDs` assert is the `"bug"` panic. -/
def scheduleControlTransfer (st : HCDState) (xferId : Nat) (x : Transfer) :
    HCDState × Outcome Unit :=
  let hsId := st.tds.length
  let st1 := { st with tds := st.tds ++
      [{ link := none, ioc := true, active := true, ls := x.lowSpeed,
         pid := if x.read then PID.out else PID.inp, toggle := true,
         maxlen := 0, ep := x.endpoint, adr := x.address, buffer := 0 }] }
  let dres := if x.dataFlag then
      createDataTDs st1 x.dataAddr x.length x.maxPacketSz0
        (if x.read then PID.inp else PID.out) x.lowSpeed x.endpoint
        x.address (some hsId)
    else (st1, some hsId, none, true)
  if dres.2.2.2 = false then (dres.1, Outcome.panicked "bug")
  else
    let suId := dres.1.tds.length
    let st3 : HCDState := { dres.1 with tds := dres.1.tds ++
        [{ link := dres.2.1, ioc := false, active := true, ls := x.lowSpeed,
           pid := PID.setup, toggle := false, maxlen := 8,
           ep := x.endpoint, adr := x.address,
           buffer := x.controlReqAddr }] }
    ({ st3 with
       scheduledItems := st3.scheduledItems ++ [(suId, xferId)],
       qhLsControlElem := some suId },
     Outcome.ok ())

/-- `UHCI_HCD::ScheduleInterruptTransfer`: build the data chain, set IOC on
the last TD, clear the toggle of the first TD, register the scheduled item
and publish the chain into interrupt QH **index 0** (the code hardwires
`int index = 0`).  When no data TD was created, the code dereferences the
uninitialized `last_td`; that undefined behaviour is embedded as a
panic. -/
def publishInterrupt (xferId : Nat)
    (d : HCDState × Option Nat × Option Nat × Bool) :
    HCDState × Outcome Unit :=
  match d.2.2.2, d.2.2.1, d.2.1 with
  | false, _, _ => (d.1, Outcome.panicked "bug")
  | true, some lastId, some headId =>
    ({ setTD (setTD d.1 lastId (fun td => { td with ioc := true }))
         headId (fun td => { td with toggle := false }) with
       scheduledItems := (setTD (setTD d.1 lastId
         (fun td => { td with ioc := true })) headId
         (fun td => { td with toggle := false })).scheduledItems ++
         [(headId, xferId)],
       qhInterruptElem := (setTD (setTD d.1 lastId
         (fun td => { td with ioc := true })) headId
         (fun td => { td with toggle := false })).qhInterruptElem.set 0
         (some headId) },
     Outcome.ok ())
  | true, _, _ => (d.1, Outcome.panicked "uninitialized last_td")

def scheduleInterruptTransfer (st : HCDState) (xferId : Nat)
    (x : Transfer) : HCDState × Outcome Unit :=
  publishInterrupt xferId (createDataTDs st x.dataAddr x.length
    x.maxPacketSz0 (if x.read then PID.inp else PID.out) x.lowSpeed
    x.endpoint x.address none)

/-- Modelled from the spec: the interrupt QH appropriate to a requested
interval — the six QHs have periods 1/2/4/8/16/32 ms. -/
def appropriateQHIndex (interval : Nat) : Nat :=
  if interval ≤ 1 then 0
  else if interval ≤ 2 then 1
  else if interval ≤ 4 then 2
  else if interval ≤ 8 then 3
  else if interval ≤ 16 then 4
  else 5

/-- Follow `td_linkptr` from a TD, listing the chain in hardware order. -/
def chainToList (st : HCDState) : Nat → Option Nat → List Nat
  | 0, _ => []
  | _, none => []
  | fuel + 1, some id => id :: chainToList st fuel (getTD st id).link

def emptyHCD : HCDState :=
  { tds := [], scheduledItems := [],
    qhInterruptElem := List.replicate 6 none, qhLsControlElem := none }

/-- A 16-byte IN control transfer on an endpoint with max packet size 8:
the data length is twice the packet size. -/
def ctrlXfer16 : Transfer :=
  { address := 1, endpoint := 0, read := true, dataFlag := true,
    length := 16, maxPacketSz0 := 8, lowSpeed := false, dataAddr := 0x5000,
    controlReqAddr := 0x6000, interval := 0 }

/-- The `get_max_lun` scenario: a 1-byte IN control transfer. -/
def getMaxLunXfer : Transfer :=
  { address := 1, endpoint := 0, read := true, dataFlag := true,
    length := 1, maxPacketSz0 := 8, lowSpeed := false, dataAddr := 0x5000,
    controlReqAddr := 0x6000, interval := 0 }

/-- A 4-byte low-speed interrupt IN transfer requesting an 8 ms period. -/
def intrXfer8ms : Transfer :=
  { address := 2, endpoint := 1, read := true, dataFlag := true,
    length := 4, maxPacketSz0 := 8, lowSpeed := true, dataAddr := 0x7000,
    controlReqAddr := 0, interval := 8 }

def maxLunSched : HCDState × Outcome Unit :=
  scheduleControlTransfer emptyHCD 0 getMaxLunXfer

def intrSched8 : HCDState × Outcome Unit :=
  scheduleInterruptTransfer emptyHCD 5 intrXfer8ms

end UHCI

/-! ## USB mass storage (`src/kernel/dev/usb/device/usb-storage.cpp`) -/

namespace Storage

def CBW_SIGNATURE : Nat := 0x43425355
def CSW_SIGNATURE : Nat := 0x53425355

structure CBW where
  signature : Nat
  tag : Nat
  dataTransferLength : Nat
  flagsIn : Bool
  lun : Nat
  cbLength : Nat
  deriving DecidableEq, Repr

structure CSW where
  signature : Nat
  tag : Nat
  dataResidue : Nat
  status : Nat
  deriving DecidableEq, Repr

/-- The CBW built by `PerformSCSIRequest`: `memset(&cbw, 0, sizeof cbw)`
followed by the field assignments — `d_cbw_tag` is never assigned, so the
posted tag is 0. -/
def buildCBW (lun : Nat) (dirIn : Bool) (cbLen resultLen : Nat) : CBW :=
  { signature := CBW_SIGNATURE, tag := 0, dataTransferLength := resultLen,
    flagsIn := dirIn, lun := lun, cbLength := cbLen }

/-- The result of `PerformSCSIRequest` once the bulk transport has
completed and delivered a full 13-byte CSW (`csw`): the `panic` on an
unsupported CDB length, then the three CSW validation checks — signature,
tag match against the posted CBW, status Good — any of which failing
yields `ANANAS_ERROR(IO)`.  (The semaphore wait and the callback plumbing
in between are not modelled; the delivered CSW is a parameter.) -/
def performSCSIRequestResult (lun : Nat) (dirIn : Bool)
    (cbLen resultLen : Nat) (csw : CSW) : Outcome Unit :=
  if cbLen ≠ 6 ∧ cbLen ≠ 10 then Outcome.panicked "invalid cb_len"
  else if csw.signature ≠ CSW_SIGNATURE then Outcome.err ErrorCode.io
  else if csw.tag ≠ (buildCBW lun dirIn cbLen resultLen).tag then
    Outcome.err ErrorCode.io
  else if csw.status ≠ 0 then Outcome.err ErrorCode.io
  else Outcome.ok ()

/-- The fields of `USBStorage` that `OnPipeInCallback` touches:
`us_output_buffer != nullptr` becomes `outputArmed`, plus
`us_output_filled`, `us_output_len`, and whether the CSW sink
(`us_csw_ptr`/`us_result_ptr`) is armed. -/
structure StorState where
  outputArmed : Bool
  outputFilled : Nat
  outputLen : Nat
  cswArmed : Bool
  deriving DecidableEq, Repr

/-- `USBStorage::OnPipeInCallback` for a completed bulk-in transfer of
`tlen` bytes: while the result buffer is armed, copy
`min(tlen, us_output_len - us_output_filled)` bytes into it and re-arm the
pipe; when the space is exhausted the buffer is disarmed (and
`us_output_len` is overwritten with the final chunk's length, as the code
does); otherwise the transfer is the CSW (or is dropped).  Returns the new
state, the number of bytes copied into the caller's result buffer, and
`need_schedule`. -/
def onPipeInCallback (s : StorState) (tlen : Nat) :
    StorState × Nat × Bool :=
  if s.outputArmed then
    ({ s with
       outputFilled := s.outputFilled +
         (if tlen > s.outputLen - s.outputFilled
           then s.outputLen - s.outputFilled else tlen),
       outputLen := if (s.outputLen - s.outputFilled) -
           (if tlen > s.outputLen - s.outputFilled
             then s.outputLen - s.outputFilled else tlen) = 0
         then (if tlen > s.outputLen - s.outputFilled
           then s.outputLen - s.outputFilled else tlen)
         else s.outputLen,
       outputArmed := (s.outputLen - s.outputFilled) -
           (if tlen > s.outputLen - s.outputFilled
             then s.outputLen - s.outputFilled else tlen) ≠ 0 },
     (if tlen > s.outputLen - s.outputFilled
       then s.outputLen - s.outputFilled else tlen),
     true)
  else if s.cswArmed then
    ({ s with cswArmed := false }, 0, false)
  else (s, 0, false)

/-- A whole request's worth of bulk-in completions: fold the callback over
the list of delivered transfer lengths, summing the bytes copied into the
caller's result buffer. -/
def runCallbacks (s : StorState) : List Nat → StorState × Nat
  | [] => (s, 0)
  | t :: ts =>
    ((runCallbacks (onPipeInCallback s t).1 ts).1,
     (onPipeInCallback s t).2.1
       + (runCallbacks (onPipeInCallback s t).1 ts).2)

/-- A well-formed CSW for a request that posted CBW tag 0. -/
def goodCSW : CSW :=
  { signature := CSW_SIGNATURE, tag := 0, dataResidue := 0, status := 0 }

/-- Mid-request storage state: 10 bytes requested, 3 already filled. -/
def demoStor : StorState :=
  { outputArmed := true, outputFilled := 3, outputLen := 10,
    cswArmed := true }

/-- Fresh storage state for a 10-byte request. -/
def demoStor0 : StorState :=
  { outputArmed := true, outputFilled := 0, outputLen := 10,
    cswArmed := true }

end Storage

/-! # Theorems

All definitions are above; everything below is proofs about them. -/

/-! ### Helpers for index-addressed stores (`List.getD`/`List.set`) -/

theorem getD_set_self {α : Type} (l : List α) (i : Nat) (a d : α)
    (h : i < l.length) : (l.set i a).getD i d = a := by
  rw [List.getD_eq_getElem?_getD, List.getElem?_set_eq_of_lt _ h]
  rfl

theorem getD_set_ne {α : Type} (l : List α) (i j : Nat) (a d : α)
    (h : i ≠ j) : (l.set i a).getD j d = l.getD j d := by
  rw [List.getD_eq_getElem?_getD, List.getElem?_set_ne h,
    ← List.getD_eq_getElem?_getD]

theorem getD_set_cases {α : Type} (l : List α) (i j : Nat) (a d : α) :
    (l.set i a).getD j d = l.getD j d
    ∨ (i = j ∧ i < l.length ∧ (l.set i a).getD j d = a) := by
  by_cases hij : i = j
  · subst hij
    by_cases hlt : i < l.length
    · exact Or.inr ⟨rfl, hlt, getD_set_self l i a d hlt⟩
    · left
      rw [List.set_eq_of_length_le (by omega)]
  · exact Or.inl (getD_set_ne l i j a d hij)


theorem getD_append_lt {α : Type} (l l2 : List α) (i : Nat) (d : α)
    (h : i < l.length) : (l ++ l2).getD i d = l.getD i d := by
  rw [List.getD_eq_getElem?_getD, List.getElem?_append_left h,
    ← List.getD_eq_getElem?_getD]

theorem getD_concat_self {α : Type} (l : List α) (x d : α) :
    (l ++ [x]).getD l.length d = x := by
  rw [List.getD_eq_getElem?_getD, List.getElem?_concat_length]
  rfl

namespace Sched

theorem specWalk_at_c (ts : List Thread) (c : Nat) (fuel : Nat) :
    specWalk ts c fuel c = none := by
  cases fuel <;> simp [specWalk]

theorem specWalk_some {ts : List Thread} {c fuel j j' : Nat}
    (h : specWalk ts c fuel j = some j') :
    j' ≠ c ∧ runnableF ts j' = true := by
  induction fuel generalizing j with
  | zero => simp [specWalk] at h
  | succ fuel ih =>
    rw [specWalk] at h
    by_cases hc : j = c
    · simp [hc] at h
    · by_cases hr : runnableF ts j = true
      · simp [hc, hr] at h
        exact h ▸ ⟨hc, hr⟩
      · simp only [hc, if_false, hr, Bool.not_eq_true] at h
        simp only [Bool.not_eq_true] at hr
        rw [if_neg (by simp [hr])] at h
        exact ih h

theorem scanFrom_eq_specWalk (ts : List Thread) (c : Nat) (t : Thread)
    (hc : c < ts.length) :
    ∀ fuel j, j < ts.length → j ≠ c →
      scanFrom (ts.set c t) (some c) fuel j = specWalk ts c fuel j := by
  intro fuel
  induction fuel with
  | zero => intro j _ _; rfl
  | succ fuel ih =>
    intro j hj hjc
    have hget : (ts.set c t)[j]? = ts[j]? :=
      List.getElem?_set_ne (by omega)
    have hblocked : blockedF (ts.set c t) j = !runnableF ts j := by
      unfold blockedF runnableF
      rw [hget, List.getElem?_eq_getElem hj]
      simp
    have hlen : (ts.set c t).length = ts.length := List.length_set ..
    rw [scanFrom, specWalk, hblocked]
    by_cases hr : runnableF ts j = true
    · simp [hr, hjc]
    · simp only [Bool.not_eq_true] at hr
      rw [if_neg hjc, hr]
      simp only [Bool.not_false, if_true, Bool.false_eq_true, if_false]
      by_cases hwrap : j + 1 = ts.length
      · by_cases hc0 : c = 0
        · have hstep : stepNext (ts.set c t).length (some c) j = none := by
            simp only [stepNext]
            rw [hlen, if_pos hwrap, if_pos hc0]
          rw [hstep]
          show (none : Option Nat) = specWalk ts c fuel (succIdx ts.length j)
          have hsucc : succIdx ts.length j = c := by
            unfold succIdx
            rw [if_pos hwrap]
            exact hc0.symm
          rw [hsucc, specWalk_at_c]
        · have hstep : stepNext (ts.set c t).length (some c) j = some 0 := by
            simp only [stepNext, hlen, if_pos hwrap]
            rw [if_neg hc0]
          rw [hstep]
          show scanFrom (ts.set c t) (some c) fuel 0
            = specWalk ts c fuel (succIdx ts.length j)
          rw [ih 0 (by omega) (fun h => hc0 h.symm)]
          have hsucc : succIdx ts.length j = 0 := by
            unfold succIdx
            rw [if_pos hwrap]
          rw [hsucc]
      · by_cases hnext : j + 1 = c
        · have hstep : stepNext (ts.set c t).length (some c) j = none := by
            simp only [stepNext, hlen, if_neg hwrap]
            rw [if_pos (by rw [hnext])]
          rw [hstep]
          show (none : Option Nat) = specWalk ts c fuel (succIdx ts.length j)
          have hsucc : succIdx ts.length j = c := by
            unfold succIdx
            rw [if_neg hwrap]
            exact hnext
          rw [hsucc, specWalk_at_c]
        · have hstep : stepNext (ts.set c t).length (some c) j
              = some (j + 1) := by
            simp only [stepNext, hlen, if_neg hwrap]
            rw [if_neg (by simp [hnext])]
          rw [hstep]
          show scanFrom (ts.set c t) (some c) fuel (j + 1)
            = specWalk ts c fuel (succIdx ts.length j)
          rw [ih (j + 1) (by omega) hnext]
          have hsucc : succIdx ts.length j = j + 1 := by
            unfold succIdx
            rw [if_neg hwrap]
          rw [hsucc]

theorem runnableF_lt {ts : List Thread} {j : Nat}
    (h : runnableF ts j = true) : j < ts.length := by
  unfold runnableF at h
  cases hj : ts[j]? with
  | none => rw [hj] at h; exact absurd h (by simp)
  | some u => exact (List.getElem?_eq_some_iff.mp hj).1

/-- C1: `schedule()` with a current thread `c` linked in the ring selects
exactly the thread the claim's walk designates: the first thread reached
from `c`'s successor (or the list head when `c` has no next, wrapping at
the list end, the walk ending upon returning to `c`) whose flags contain
neither Active nor Suspended — or the CPU's idle thread when that walk
finds no candidate.  The selected thread is marked Active (and was not
Suspended), and the current thread's Active bit is cleared. -/
theorem schedule_matches_spec (ts : List Thread) (c : Nat)
    (hc : c < ts.length) :
    ((schedule ts (some c)).2 =
      match specNextRunnable ts c with
      | some j => Sel.thread j
      | none => Sel.idle)
    ∧ (∀ t, (schedule ts (some c)).1[c]? = some t → t.active = false)
    ∧ (∀ j t, specNextRunnable ts c = some j →
        (schedule ts (some c)).1[j]? = some t →
        t.active = true ∧ t.suspended = false) := by
  cases hget : ts[c]? with
  | none =>
    have := List.getElem?_eq_getElem hc
    rw [hget] at this
    cases this
  | some t0 =>
  set ts1 : List Thread := ts.set c { t0 with active := false } with hts1
  have hlen1 : ts1.length = ts.length := List.length_set ..
  have hbody : schedule ts (some c) =
      match scanFrom ts1 (some c) (ts.length + 1) (succIdx ts.length c) with
      | none => (ts1, Sel.idle)
      | some j =>
        if some j = some c then (ts1, Sel.idle)
        else match ts1[j]? with
          | some t => (ts1.set j { t with active := true }, Sel.thread j)
          | none => (ts1, Sel.idle) := by
    rw [schedule]
    simp only [hget, hlen1]
  have hc_entry : ts1[c]? = some { t0 with active := false } := by
    rw [hts1]
    exact List.getElem?_set_eq_of_lt _ hc
  -- main case analysis: what the scan produces versus what the spec walk says
  have hmain :
      (specNextRunnable ts c = none ∧ schedule ts (some c) = (ts1, Sel.idle))
      ∨ (∃ j tj, specNextRunnable ts c = some j ∧ j ≠ c ∧ j < ts.length ∧
          ts1[j]? = some tj ∧ tj.active = false ∧ tj.suspended = false ∧
          schedule ts (some c) =
            (ts1.set j { tj with active := true }, Sel.thread j)) := by
    by_cases hstart : succIdx ts.length c = c
    · -- the walk starts at `c` itself (single-thread list): idle either way
      left
      have hn1 : ts.length = 1 ∧ c = 0 := by
        unfold succIdx at hstart
        by_cases hw : c + 1 = ts.length
        · rw [if_pos hw] at hstart; omega
        · rw [if_neg hw] at hstart; omega
      obtain ⟨hn, hc0⟩ := hn1
      subst hc0
      refine ⟨by rw [specNextRunnable, hstart, specWalk_at_c], ?_⟩
      rw [hbody, hstart, scanFrom]
      by_cases hb : blockedF ts1 0 = true
      · have hstep : stepNext ts1.length (some 0) 0 = none := by
          simp only [stepNext]
          rw [hlen1, if_pos (by omega)]
          rfl
        rw [if_pos hb, hstep]
      · rw [if_neg hb]
        show (if some 0 = some 0 then (ts1, Sel.idle)
          else match ts1[0]? with
            | some t => (ts1.set 0 { t with active := true }, Sel.thread 0)
            | none => (ts1, Sel.idle)) = (ts1, Sel.idle)
        rw [if_pos rfl]
    · have hstart_lt : succIdx ts.length c < ts.length := by
        unfold succIdx
        by_cases hw : c + 1 = ts.length
        · rw [if_pos hw]; omega
        · rw [if_neg hw]; omega
      have hwalk : scanFrom ts1 (some c) (ts.length + 1)
          (succIdx ts.length c) = specNextRunnable ts c := by
        rw [hts1, scanFrom_eq_specWalk ts c _ hc _ _ hstart_lt hstart]
        rfl
      cases hspec : specNextRunnable ts c with
      | none =>
        left
        refine ⟨rfl, ?_⟩
        rw [hbody, hwalk, hspec]
      | some j =>
        right
        have hsw : specWalk ts c (ts.length + 1) (succIdx ts.length c)
            = some j := hspec
        obtain ⟨hjc, hjr⟩ := specWalk_some hsw
        have hjlt : j < ts.length := runnableF_lt hjr
        have hjget : ts1[j]? = ts[j]? := by
          rw [hts1]; exact List.getElem?_set_ne (by omega)
        cases hjget2 : ts[j]? with
        | none =>
          have := List.getElem?_eq_getElem hjlt
          rw [hjget2] at this
          cases this
        | some tj =>
        have hflags : tj.active = false ∧ tj.suspended = false := by
          unfold runnableF at hjr
          rw [hjget2] at hjr
          simp only [Bool.not_eq_true', Bool.or_eq_false_iff] at hjr
          exact hjr
        refine ⟨j, tj, rfl, hjc, hjlt, by rw [hjget, hjget2], hflags.1,
          hflags.2, ?_⟩
        rw [hbody, hwalk, hspec]
        show (if some j = some c then (ts1, Sel.idle)
          else match ts1[j]? with
            | some t => (ts1.set j { t with active := true }, Sel.thread j)
            | none => (ts1, Sel.idle))
          = (ts1.set j { tj with active := true }, Sel.thread j)
        rw [if_neg (by simp [hjc]), hjget, hjget2]
    -- end hmain
  rcases hmain with ⟨hspec, heq⟩ |
    ⟨j, tj, hspec, hjc, hjlt, hjget, _, hsusp, heq⟩
  · refine ⟨?_, ?_, ?_⟩
    · rw [heq, hspec]
    · intro t ht
      rw [heq] at ht
      simp only at ht
      rw [hc_entry] at ht
      cases ht
      rfl
    · intro j t hj _
      rw [hspec] at hj
      cases hj
  · refine ⟨?_, ?_, ?_⟩
    · rw [heq, hspec]
    · intro t ht
      rw [heq] at ht
      simp only at ht
      rw [List.getElem?_set_ne (by omega), hc_entry] at ht
      cases ht
      rfl
    · intro j' t hj' ht
      rw [hspec] at hj'
      cases hj'
      rw [heq] at ht
      simp only at ht
      rw [List.getElem?_set_eq_of_lt _ (by rw [hlen1]; omega)] at ht
      cases ht
      exact ⟨rfl, hsusp⟩

/-- Witness for C1: the claim's three-thread scenario.  Threads A, B, C all
runnable, A current: the theorem applies, and three successive `schedule()`
calls select B, then C, then back to A. -/
theorem schedule_matches_spec_witness :
    ((0 : Nat) < 3)
    ∧ (((schedule [⟨true, false⟩, ⟨false, false⟩, ⟨false, false⟩]
          (some 0)).2 =
        match specNextRunnable
            [⟨true, false⟩, ⟨false, false⟩, ⟨false, false⟩] 0 with
        | some j => Sel.thread j
        | none => Sel.idle)
      ∧ (∀ t, (schedule [⟨true, false⟩, ⟨false, false⟩, ⟨false, false⟩]
            (some 0)).1[0]? = some t → t.active = false)
      ∧ (∀ j t, specNextRunnable
            [⟨true, false⟩, ⟨false, false⟩, ⟨false, false⟩] 0 = some j →
          (schedule [⟨true, false⟩, ⟨false, false⟩, ⟨false, false⟩]
            (some 0)).1[j]? = some t →
          t.active = true ∧ t.suspended = false))
    ∧ (let r1 := schedule [⟨true, false⟩, ⟨false, false⟩, ⟨false, false⟩]
          (some 0)
       let r2 := schedule r1.1 (some 1)
       let r3 := schedule r2.1 (some 2)
       r1.2 = Sel.thread 1 ∧ r2.2 = Sel.thread 2 ∧ r3.2 = Sel.thread 0) :=
  ⟨by decide,
   schedule_matches_spec [⟨true, false⟩, ⟨false, false⟩, ⟨false, false⟩] 0
     (by decide),
   by decide⟩

end Sched

namespace DCache

/-! Frame lemmas for the store accessors and `dentry_deref_fuel`. -/

theorem setE_inuse (st : Cache) (d : Nat) (f : DEntry → DEntry) :
    (setE st d f).inuse = st.inuse := rfl

theorem setE_free (st : Cache) (d : Nat) (f : DEntry → DEntry) :
    (setE st d f).free = st.free := rfl

theorem setE_length (st : Cache) (d : Nat) (f : DEntry → DEntry) :
    (setE st d f).store.length = st.store.length := List.length_set ..

theorem getE_setE_ne (st : Cache) (d : Nat) (f : DEntry → DEntry) (i : Nat)
    (h : d ≠ i) : getE (setE st d f) i = getE st i := by
  unfold getE setE
  exact getD_set_ne _ _ _ _ _ h

theorem getE_setE_self (st : Cache) (d : Nat) (f : DEntry → DEntry)
    (h : d < st.store.length) : getE (setE st d f) d = f (getE st d) := by
  unfold getE setE
  exact getD_set_self _ _ _ _ h

theorem getE_oob {st : Cache} {d : Nat} (h : st.store.length ≤ d) :
    getE st d = emptyDE := by
  unfold getE
  exact List.getD_eq_default _ _ h

theorem getE_lt_of_parent {st : Cache} {d p : Nat}
    (h : (getE st d).parent = some p) : d < st.store.length := by
  by_contra hge
  rw [getE_oob (by omega)] at h
  simp [emptyDE] at h

theorem getE_setE_pres (st : Cache) (d : Nat) (f : DEntry → DEntry) (i : Nat)
    (hf : ∀ e, (f e).inode = e.inode ∧ (f e).name = e.name) :
    (getE (setE st d f) i).inode = (getE st i).inode
    ∧ (getE (setE st d f) i).name = (getE st i).name := by
  by_cases h : d = i
  · subst h
    by_cases hlt : d < st.store.length
    · rw [getE_setE_self st d f hlt]
      exact hf _
    · unfold setE getE
      rw [List.set_eq_of_length_le (by omega)]
      exact ⟨rfl, rfl⟩
  · rw [getE_setE_ne st d f i h]
    exact ⟨rfl, rfl⟩

theorem deref_fuel_frame (fuel : Nat) : ∀ (st : Cache) (q : Nat),
    (dentry_deref_fuel st fuel q).2.inuse = st.inuse
    ∧ (dentry_deref_fuel st fuel q).2.free = st.free
    ∧ (dentry_deref_fuel st fuel q).2.store.length = st.store.length
    ∧ ∀ i, (getE (dentry_deref_fuel st fuel q).2 i).inode = (getE st i).inode
        ∧ (getE (dentry_deref_fuel st fuel q).2 i).name = (getE st i).name := by
  induction fuel with
  | zero => intro st q; exact ⟨rfl, rfl, rfl, fun i => ⟨rfl, rfl⟩⟩
  | succ fuel ih =>
    intro st q
    rw [dentry_deref_fuel]
    by_cases h0 : (getE st q).refcount = 0
    · rw [if_pos h0]
      exact ⟨rfl, rfl, rfl, fun i => ⟨rfl, rfl⟩⟩
    · rw [if_neg h0]
      by_cases h1 : (getE st q).refcount - 1 > 0
      · rw [if_pos h1]
        exact ⟨rfl, rfl, setE_length .., fun i =>
          getE_setE_pres st q _ i (fun e => ⟨rfl, rfl⟩)⟩
      · rw [if_neg h1]
        cases hp : (getE st q).parent with
        | none =>
          exact ⟨rfl, rfl, setE_length .., fun i =>
            getE_setE_pres st q _ i (fun e => ⟨rfl, rfl⟩)⟩
        | some p =>
          rcases hrec : dentry_deref_fuel
              (setE st q (fun e => { e with refcount := e.refcount - 1 }))
              fuel p with ⟨r, st2⟩
          have hi := ih (setE st q (fun e => { e with refcount := e.refcount - 1 })) p
          rw [hrec] at hi
          cases r with
          | ok a =>
            simp only [hrec]
            refine ⟨?_, ?_, ?_, ?_⟩
            · rw [setE_inuse, hi.1, setE_inuse]
            · rw [setE_free, hi.2.1, setE_free]
            · rw [setE_length, hi.2.2.1, setE_length]
            · intro i
              have h2 := getE_setE_pres st2 q
                (fun e => { e with parent := none }) i (fun e => ⟨rfl, rfl⟩)
              have h3 := hi.2.2.2 i
              have h4 := getE_setE_pres st q
                (fun e => { e with refcount := e.refcount - 1 }) i
                (fun e => ⟨rfl, rfl⟩)
              exact ⟨h2.1.trans (h3.1.trans h4.1),
                h2.2.trans (h3.2.trans h4.2)⟩
          | err e =>
            simp only [hrec]
            refine ⟨hi.1.trans (setE_inuse ..), hi.2.1.trans (setE_free ..),
              hi.2.2.1.trans (setE_length ..), fun i => ?_⟩
            have h3 := hi.2.2.2 i
            have h4 := getE_setE_pres st q
              (fun e => { e with refcount := e.refcount - 1 }) i
              (fun e => ⟨rfl, rfl⟩)
            exact ⟨h3.1.trans h4.1, h3.2.trans h4.2⟩
          | panicked m =>
            simp only [hrec]
            refine ⟨hi.1.trans (setE_inuse ..), hi.2.1.trans (setE_free ..),
              hi.2.2.1.trans (setE_length ..), fun i => ?_⟩
            have h3 := hi.2.2.2 i
            have h4 := getE_setE_pres st q
              (fun e => { e with refcount := e.refcount - 1 }) i
              (fun e => ⟨rfl, rfl⟩)
            exact ⟨h3.1.trans h4.1, h3.2.trans h4.2⟩

theorem deref_fuel_keeps_zero (fuel : Nat) : ∀ (st : Cache) (q i : Nat),
    (dentry_deref_fuel st fuel q).1 = Outcome.ok () →
    (getE st i).refcount = 0 →
    (getE (dentry_deref_fuel st fuel q).2 i).refcount = 0
    ∧ (getE (dentry_deref_fuel st fuel q).2 i).parent = (getE st i).parent := by
  induction fuel with
  | zero =>
    intro st q i hok _
    rw [dentry_deref_fuel] at hok
    exact absurd hok (by simp)
  | succ fuel ih =>
    intro st q i hok hi0
    rw [dentry_deref_fuel] at hok ⊢
    by_cases h0 : (getE st q).refcount = 0
    · rw [if_pos h0] at hok
      exact absurd hok (by simp)
    · have hqi : q ≠ i := fun h => h0 (h ▸ hi0)
      rw [if_neg h0] at hok ⊢
      by_cases h1 : (getE st q).refcount - 1 > 0
      · rw [if_pos h1]
        rw [getE_setE_ne st q _ i hqi]
        exact ⟨hi0, rfl⟩
      · rw [if_neg h1] at hok ⊢
        cases hp : (getE st q).parent with
        | none =>
          rw [getE_setE_ne st q _ i hqi]
          exact ⟨hi0, rfl⟩
        | some p =>
          rw [hp] at hok
          have hzero1 : (getE (setE st q
              (fun e => { e with refcount := e.refcount - 1 })) i).refcount
              = 0 := by
            rw [getE_setE_ne st q _ i hqi]
            exact hi0
          rcases hrec : dentry_deref_fuel
              (setE st q (fun e => { e with refcount := e.refcount - 1 }))
              fuel p with ⟨r, st2⟩
          cases r with
          | ok a =>
            simp only [hrec]
            have hii := ih (setE st q
              (fun e => { e with refcount := e.refcount - 1 })) p i
              (by rw [hrec]) hzero1
            rw [hrec] at hii
            constructor
            · rw [getE_setE_ne st2 q _ i hqi]
              exact hii.1
            · rw [getE_setE_ne st2 q _ i hqi, hii.2,
                getE_setE_ne st q _ i hqi]
          | err e =>
            simp only [hrec] at hok
            simp at hok
          | panicked m =>
            simp only [hrec] at hok
            simp at hok

theorem scanInuse_some {st : Cache} {p : Nat} {n : String} :
    ∀ {l : List Nat} {d : Nat}, scanInuse st p n l = some d →
      d ∈ l ∧ (getE st d).parent = some p ∧ (getE st d).name = n := by
  intro l
  induction l with
  | nil => intro d h; cases h
  | cons x rest ih =>
    intro d h
    rw [scanInuse] at h
    by_cases hm : (getE st x).parent = some p ∧ (getE st x).name = n
    · rw [if_pos hm] at h
      cases h
      exact ⟨List.mem_cons_self .., hm⟩
    · rw [if_neg hm] at h
      obtain ⟨h1, h2⟩ := ih h
      exact ⟨List.mem_cons_of_mem _ h1, h2⟩

theorem scanInuse_none {st : Cache} {p : Nat} {n : String} :
    ∀ {l : List Nat}, scanInuse st p n l = none →
      ∀ d ∈ l, ¬((getE st d).parent = some p ∧ (getE st d).name = n) := by
  intro l
  induction l with
  | nil => intro _ d hd; cases hd
  | cons x rest ih =>
    intro h d hd
    rw [scanInuse] at h
    by_cases hm : (getE st x).parent = some p ∧ (getE st x).name = n
    · rw [if_pos hm] at h; cases h
    · rw [if_neg hm] at h
      rcases List.mem_cons.mp hd with rfl | hmem
      · exact hm
      · exact ih h d hmem

theorem scanInuse_ne_of_parent_none {st : Cache} {x : Nat}
    (hx : (getE st x).parent = none) (p : Nat) (n : String) :
    ∀ l : List Nat, scanInuse st p n l ≠ some x := by
  intro l h
  obtain ⟨_, hpar, _⟩ := scanInuse_some h
  rw [hx] at hpar
  cases hpar

/-! Congruence and field lemmas for `dcache_set_inode` and the claims. -/

theorem getE_setE_pres2 (st : Cache) (d : Nat) (f : DEntry → DEntry) (i : Nat)
    (hf : ∀ e, (f e).parent = e.parent ∧ (f e).name = e.name
      ∧ (f e).refcount = e.refcount) :
    (getE (setE st d f) i).parent = (getE st i).parent
    ∧ (getE (setE st d f) i).name = (getE st i).name
    ∧ (getE (setE st d f) i).refcount = (getE st i).refcount := by
  by_cases h : d = i
  · subst h
    by_cases hlt : d < st.store.length
    · rw [getE_setE_self st d f hlt]
      exact hf _
    · unfold setE getE
      rw [List.set_eq_of_length_le (by omega)]
      exact ⟨rfl, rfl, rfl⟩
  · rw [getE_setE_ne st d f i h]
    exact ⟨rfl, rfl, rfl⟩

theorem set_inode_fields (st : Cache) (d ino i : Nat) :
    (getE (dcache_set_inode st d ino) i).parent = (getE st i).parent
    ∧ (getE (dcache_set_inode st d ino) i).name = (getE st i).name
    ∧ (getE (dcache_set_inode st d ino) i).refcount
        = (getE st i).refcount := by
  unfold dcache_set_inode
  cases hi : (getE st d).inode with
  | some old =>
    simp only
    exact getE_setE_pres2 (refInode (derefInode st old) ino) d _ i
      (fun e => ⟨rfl, rfl, rfl⟩)
  | none =>
    simp only
    exact getE_setE_pres2 (refInode st ino) d _ i (fun e => ⟨rfl, rfl, rfl⟩)

theorem set_inode_inuse (st : Cache) (d ino : Nat) :
    (dcache_set_inode st d ino).inuse = st.inuse := by
  unfold dcache_set_inode
  cases hi : (getE st d).inode <;> rfl

theorem set_inode_length (st : Cache) (d ino : Nat) :
    (dcache_set_inode st d ino).store.length = st.store.length := by
  unfold dcache_set_inode
  cases hi : (getE st d).inode <;> exact List.length_set ..

theorem set_inode_resolves (st : Cache) (d ino : Nat)
    (hlt : d < st.store.length) :
    (getE (dcache_set_inode st d ino) d).inode = some ino := by
  unfold dcache_set_inode
  cases hi : (getE st d).inode with
  | some old =>
    simp only
    rw [getE_setE_self (refInode (derefInode st old) ino) d _ hlt]
  | none =>
    simp only
    rw [getE_setE_self (refInode st ino) d _ hlt]

theorem scanInuse_congr {s1 s2 : Cache}
    (h : ∀ d, (getE s1 d).parent = (getE s2 d).parent
      ∧ (getE s1 d).name = (getE s2 d).name)
    (p : Nat) (n : String) :
    ∀ l, scanInuse s1 p n l = scanInuse s2 p n l := by
  intro l
  induction l with
  | nil => rfl
  | cons x rest ih =>
    by_cases hc : (getE s2 x).parent = some p ∧ (getE s2 x).name = n
    · rw [scanInuse, scanInuse, if_pos hc,
        if_pos (by rw [(h x).1, (h x).2]; exact hc)]
    · rw [scanInuse, scanInuse, if_neg hc,
        if_neg (by rw [(h x).1, (h x).2]; exact hc), ih]

theorem findVictim_eq_reverse_find (st : Cache) : ∀ l : List Nat,
    findVictim st l = l.reverse.find?
      (fun d => decide ((getE st d).refcount = 0
        ∧ (getE st d).root = false)) := by
  intro l
  induction l with
  | nil => rfl
  | cons x rest ih =>
    rw [findVictim, List.reverse_cons, List.find?_append, ih]
    cases hf : rest.reverse.find?
        (fun d => decide ((getE st d).refcount = 0
          ∧ (getE st d).root = false)) with
    | some y => rfl
    | none =>
      rw [Option.none_or, List.find?_cons]
      by_cases hc : (getE st x).refcount = 0 ∧ (getE st x).root = false
      · rw [if_pos hc]
        simp [hc]
      · rw [if_neg hc]
        simp only [decide_eq_true_eq]
        rw [decide_eq_false hc]
        rfl

/-- C4 (amended): after `dentry_deref` brings a dentry's refcount to 0, the
entry stays on the in-use list (it is not returned to the free list) and
keeps its cached inode — but `dentry_deref_locked` also clears its parent
link, so a subsequent `dcache_lookup(parent, name)` can never rediscover
it: the in-use scan cannot return this entry for any `(parent, name)`
key. -/
theorem dentry_deref_zero_keeps_entry (st : Cache) (d p : Nat)
    (hin : d ∈ st.inuse) (hnf : d ∉ st.free)
    (hrc : (getE st d).refcount = 1)
    (hp : (getE st d).parent = some p)
    (hok : (dentry_deref st d).1 = Outcome.ok ()) :
    d ∈ (dentry_deref st d).2.inuse
    ∧ d ∉ (dentry_deref st d).2.free
    ∧ (getE (dentry_deref st d).2 d).refcount = 0
    ∧ (getE (dentry_deref st d).2 d).parent = none
    ∧ (getE (dentry_deref st d).2 d).inode = (getE st d).inode
    ∧ ∀ pq nq, scanInuse (dentry_deref st d).2 pq nq
        ((dentry_deref st d).2.inuse) ≠ some d := by
  have hdlt : d < st.store.length := getE_lt_of_parent hp
  have h0 : ¬((getE st d).refcount = 0) := by rw [hrc]; simp
  have h1 : ¬((getE st d).refcount - 1 > 0) := by rw [hrc]; simp
  unfold dentry_deref at hok ⊢
  rw [dentry_deref_fuel] at hok ⊢
  rw [if_neg h0, if_neg h1, hp] at hok ⊢
  rcases hrec : dentry_deref_fuel
      (setE st d (fun e => { e with refcount := e.refcount - 1 }))
      st.store.length p with ⟨r, st2⟩
  cases r with
  | err e =>
    simp only [hrec] at hok
    simp at hok
  | panicked m =>
    simp only [hrec] at hok
    simp at hok
  | ok a =>
    simp only [hrec]
    have hframe := deref_fuel_frame st.store.length
      (setE st d (fun e => { e with refcount := e.refcount - 1 })) p
    rw [hrec] at hframe
    have hzero := deref_fuel_keeps_zero st.store.length
      (setE st d (fun e => { e with refcount := e.refcount - 1 })) p d
      (by rw [hrec])
      (by rw [getE_setE_self st d _ hdlt]; simp [hrc])
    rw [hrec] at hzero
    have hlen2 : st2.store.length = st.store.length := by
      rw [hframe.2.2.1, setE_length]
    have hd2 : d < st2.store.length := by omega
    have hself := getE_setE_self st2 d
      (fun e => { e with parent := none }) hd2
    have hinuse2 : (setE st2 d (fun e => { e with parent := none })).inuse
        = st.inuse := by
      rw [setE_inuse, hframe.1, setE_inuse]
    have hfree2 : (setE st2 d (fun e => { e with parent := none })).free
        = st.free := by
      rw [setE_free, hframe.2.1, setE_free]
    have hparent_none :
        (getE (setE st2 d (fun e => { e with parent := none })) d).parent
          = none := by
      rw [hself]
    refine ⟨?_, ?_, ?_, hparent_none, ?_, ?_⟩
    · rw [hinuse2]; exact hin
    · rw [hfree2]; exact hnf
    · rw [hself]
      exact hzero.1
    · have hp1 := getE_setE_pres st2 d (fun e => { e with parent := none })
        d (fun e => ⟨rfl, rfl⟩)
      have hp2 := hframe.2.2.2 d
      have hp3 := getE_setE_pres st d
        (fun e => { e with refcount := e.refcount - 1 }) d
        (fun e => ⟨rfl, rfl⟩)
      exact hp1.1.trans (hp2.1.trans hp3.1)
    · intro pq nq
      exact scanInuse_ne_of_parent_none hparent_none pq nq _

/-- C4 counterexample: concrete round trip through the cache model (root
dentry, resolved child `a` with inode 5, `dentry_deref` to refcount 0,
second `dcache_lookup(root, "a")`).  The second lookup does not rediscover
entry 1 with its cached inode: it misses and allocates the fresh entry 2
whose inode is `NULL`, so the name→inode mapping is re-resolved through the
filesystem. -/
theorem deref_lookup_roundtrip_fails :
    lookA1.1 = Outcome.ok (some 1)
    ∧ (getE stA 1).inode = some 5
    ∧ (dentry_deref stA 1).1 = Outcome.ok ()
    ∧ 1 ∈ stADeref.inuse
    ∧ lookA2.1 = Outcome.ok (some 2)
    ∧ (getE lookA2.2 2).inode = none := by decide

/-- Witness for the amended C4 theorem at the concrete scenario state. -/
theorem dentry_deref_zero_keeps_entry_witness :
    (1 ∈ stA.inuse ∧ 1 ∉ stA.free ∧ (getE stA 1).refcount = 1
      ∧ (getE stA 1).parent = some 0
      ∧ (dentry_deref stA 1).1 = Outcome.ok ())
    ∧ (1 ∈ (dentry_deref stA 1).2.inuse
      ∧ 1 ∉ (dentry_deref stA 1).2.free
      ∧ (getE (dentry_deref stA 1).2 1).refcount = 0
      ∧ (getE (dentry_deref stA 1).2 1).parent = none
      ∧ (getE (dentry_deref stA 1).2 1).inode = (getE stA 1).inode
      ∧ ∀ pq nq, scanInuse (dentry_deref stA 1).2 pq nq
          ((dentry_deref stA 1).2.inuse) ≠ some 1) :=
  ⟨⟨by decide, by decide, by decide, by decide, by decide⟩,
   dentry_deref_zero_keeps_entry stA 1 0 (by decide) (by decide) (by decide)
     (by decide) (by decide)⟩

/-- C8: `dcache_lookup(parent, name)` returns `NULL` iff the in-use list
contains an entry matching `(parent, name)` whose inode is `NULL` and whose
Negative flag is clear (resolution pending) — no other condition produces a
`NULL` return — and once the resolver fills the inode via
`dcache_set_inode`, a re-invoked lookup returns that dentry with its
refcount incremented.  (The uniqueness hypothesis rules out duplicate
`(parent, name)` entries, which the cache discipline never creates.) -/
theorem dcache_lookup_pending_iff (st : Cache) (p : Nat) (n : String)
    (huniq : ∀ d1 d2, d1 ∈ st.inuse → d2 ∈ st.inuse →
      (getE st d1).parent = some p → (getE st d1).name = n →
      (getE st d2).parent = some p → (getE st d2).name = n → d1 = d2) :
    ((dcache_lookup st p n).1 = Outcome.ok none ↔
      ∃ d, d ∈ st.inuse ∧ (getE st d).parent = some p
        ∧ (getE st d).name = n
        ∧ (getE st d).inode = none ∧ (getE st d).negative = false)
    ∧ (∀ d ino, scanInuse st p n st.inuse = some d →
        (dcache_lookup (dcache_set_inode st d ino) p n).1
          = Outcome.ok (some d)
        ∧ (getE (dcache_lookup (dcache_set_inode st d ino) p n).2 d).refcount
          = (getE st d).refcount + 1) := by
  constructor
  · cases hscan : scanInuse st p n st.inuse with
    | some d =>
      obtain ⟨hdin, hdp, hdn⟩ := scanInuse_some hscan
      by_cases hpend : (getE st d).inode = none
          ∧ (getE st d).negative = false
      · constructor
        · intro _
          exact ⟨d, hdin, hdp, hdn, hpend.1, hpend.2⟩
        · intro _
          unfold dcache_lookup
          simp only [hscan]
          rw [if_pos hpend]
      · constructor
        · intro hcontra
          unfold dcache_lookup at hcontra
          simp only [hscan] at hcontra
          rw [if_neg hpend] at hcontra
          simp at hcontra
        · rintro ⟨e, hein, hep, hen, hei, heneg⟩
          have : d = e := huniq d e hdin hein hdp hdn hep hen
          subst this
          exact absurd ⟨hei, heneg⟩ hpend
    | none =>
      have hnone := scanInuse_none hscan
      constructor
      · intro hcontra
        unfold dcache_lookup at hcontra
        simp only [hscan] at hcontra
        rcases hfind : findEntryToUse st with _ | ⟨d, st1⟩
        · simp only [hfind] at hcontra
          simp at hcontra
        · simp only [hfind] at hcontra
          by_cases hrc : (getE st1 p).refcount = 0
          · rw [if_pos hrc] at hcontra
            simp at hcontra
          · rw [if_neg hrc] at hcontra
            simp at hcontra
      · rintro ⟨d, hdin, hdp, hdn, _, _⟩
        exact absurd ⟨hdp, hdn⟩ (hnone d hdin)
  · intro d ino hscan
    obtain ⟨hdin, hdp, hdn⟩ := scanInuse_some hscan
    have hdlt : d < st.store.length := getE_lt_of_parent hdp
    have hfields := fun i => set_inode_fields st d ino i
    have hscan2 : scanInuse (dcache_set_inode st d ino) p n
        ((dcache_set_inode st d ino).inuse) = some d := by
      rw [set_inode_inuse,
        scanInuse_congr (fun i => ⟨(hfields i).1, (hfields i).2.1⟩) p n
          st.inuse]
      exact hscan
    have hres : (getE (dcache_set_inode st d ino) d).inode = some ino :=
      set_inode_resolves st d ino hdlt
    have hnotpend : ¬((getE (dcache_set_inode st d ino) d).inode = none
        ∧ (getE (dcache_set_inode st d ino) d).negative = false) := by
      rw [hres]
      simp
    unfold dcache_lookup
    simp only [hscan2]
    rw [if_neg hnotpend]
    refine ⟨rfl, ?_⟩
    show (getE (setE (dcache_set_inode st d ino) d
        (fun e => { e with refcount := e.refcount + 1 })) d).refcount = _
    rw [getE_setE_self (dcache_set_inode st d ino) d _
      (by rw [set_inode_length]; exact hdlt)]
    show (getE (dcache_set_inode st d ino) d).refcount + 1 = _
    rw [(hfields d).2.2]

/-- Witness for C8: the two-caller scenario.  After `lookup(root, "x")`
misses (creating pending entry 1), a second lookup returns `NULL`; after
`set_inode`, the re-invoked lookup returns entry 1 with refcount 2. -/
theorem dcache_lookup_pending_iff_witness :
    lookX2.1 = Outcome.ok none
    ∧ lookX3.1 = Outcome.ok (some 1)
    ∧ (getE lookX3.2 1).refcount = 2 := by
  have h := dcache_lookup_pending_iff lookX1.2 0 "x" (by
    intro d1 d2 h1 h2 hp1 hn1 hp2 hn2
    have hl : lookX1.2.inuse = [1, 0] := by decide
    rw [hl] at h1 h2
    simp only [List.mem_cons, List.not_mem_nil, or_false] at h1 h2
    rcases h1 with rfl | rfl <;> rcases h2 with rfl | rfl
    · rfl
    · exfalso; revert hp2; decide
    · exfalso; revert hp1; decide
    · rfl)
  refine ⟨?_, by decide, by decide⟩
  show (dcache_lookup lookX1.2 0 "x").1 = Outcome.ok none
  exact h.1.mpr ⟨1, by decide, by decide, by decide, by decide, by decide⟩

/-- C9: the dcache in-use list is kept in recency order.  A resolved lookup
hit moves the entry to the head of the in-use list and increments its
refcount; and when the free-list is empty, slot reclamation takes exactly
the tail-most (least recently used) entry with refcount 0 and Root clear. -/
theorem dcache_lru (st : Cache) (p : Nat) (n : String) :
    (∀ d, scanInuse st p n st.inuse = some d →
      ¬((getE st d).inode = none ∧ (getE st d).negative = false) →
      (dcache_lookup st p n).1 = Outcome.ok (some d)
      ∧ (dcache_lookup st p n).2.inuse = d :: st.inuse.erase d
      ∧ (getE (dcache_lookup st p n).2 d).refcount
          = (getE st d).refcount + 1)
    ∧ (st.free = [] →
        Option.map Prod.fst (findEntryToUse st)
          = st.inuse.reverse.find?
              (fun d => decide ((getE st d).refcount = 0
                ∧ (getE st d).root = false))) := by
  constructor
  · intro d hscan hres
    obtain ⟨hdin, hdp, hdn⟩ := scanInuse_some hscan
    have hdlt : d < st.store.length := getE_lt_of_parent hdp
    unfold dcache_lookup
    simp only [hscan]
    rw [if_neg hres]
    refine ⟨rfl, rfl, ?_⟩
    show (getE (setE st d
        (fun e => { e with refcount := e.refcount + 1 })) d).refcount = _
    rw [getE_setE_self st d _ hdlt]
  · intro hfree
    unfold findEntryToUse
    rw [hfree, ← findVictim_eq_reverse_find st st.inuse]
    cases hv : findVictim st st.inuse with
    | none => rfl
    | some d => rfl

/-- Witness for C9: the `a`, `b`, `a` lookup scenario leaves the in-use
order `a, b, root` from the head, and eviction from a full cache picks the
tail-most zero-ref non-root entry. -/
theorem dcache_lru_witness :
    ((dcache_lookup stB 0 "a").1 = Outcome.ok (some 1)
      ∧ (dcache_lookup stB 0 "a").2.inuse = 1 :: stB.inuse.erase 1
      ∧ (getE (dcache_lookup stB 0 "a").2 1).refcount
          = (getE stB 1).refcount + 1)
    ∧ lookA3.2.inuse = [1, 2, 0]
    ∧ (getE stB 1).name = "a"
    ∧ (getE stB 2).name = "b"
    ∧ Option.map Prod.fst (findEntryToUse demoFullCache) = some 3 := by
  refine ⟨(dcache_lru stB 0 "a").1 1 (by decide) (by decide),
    by decide, by decide, by decide, ?_⟩
  have h := (dcache_lru demoFullCache 0 "a").2 rfl
  rw [h]
  decide

end DCache

namespace VM

/-! Store lemmas for the vm page and frame stores. -/

theorem getP_setP_ne (st : VMSt) (d : Nat) (f : VMPage → VMPage) (i : Nat)
    (h : d ≠ i) : getP (setP st d f) i = getP st i := by
  unfold getP setP
  exact getD_set_ne _ _ _ _ _ h

theorem getP_setP_self (st : VMSt) (d : Nat) (f : VMPage → VMPage)
    (h : d < st.vmpages.length) : getP (setP st d f) d = f (getP st d) := by
  unfold getP setP
  exact getD_set_self _ _ _ _ h

theorem setP_length (st : VMSt) (d : Nat) (f : VMPage → VMPage) :
    (setP st d f).vmpages.length = st.vmpages.length := List.length_set ..

theorem setP_frames (st : VMSt) (d : Nat) (f : VMPage → VMPage) :
    (setP st d f).frames = st.frames := rfl

theorem setP_mappings (st : VMSt) (d : Nat) (f : VMPage → VMPage) :
    (setP st d f).mappings = st.mappings := rfl

theorem getP_pending_lt {st : VMSt} {id : Nat}
    (h : (getP st id).flags.pending = true) : id < st.vmpages.length := by
  by_contra hge
  have : getP st id = emptyPg := by
    unfold getP
    exact List.getD_eq_default _ _ (by omega)
  rw [this] at h
  cases h

theorem getP_page_lt {st : VMSt} {id : Nat} {pa : Nat}
    (h : (getP st id).page = some pa) : id < st.vmpages.length := by
  by_contra hge
  have : getP st id = emptyPg := by
    unfold getP
    exact List.getD_eq_default _ _ (by omega)
  rw [this] at h
  cases h

/-- The first area containing the fault address handles it; earlier areas
are passed over unchanged. -/
theorem walk_first_match (st : VMSt) (virt : Nat) :
    ∀ (pre : List VMArea) (va : VMArea) (post : List VMArea),
      (∀ a ∈ pre, ¬(a.virt ≤ virt ∧ virt < a.virt + a.len)) →
      (va.virt ≤ virt ∧ virt < va.virt + va.len) →
      handle_fault_walk st virt (pre ++ va :: post)
        = ((handle_fault_area st va virt).1,
           (handle_fault_area st va virt).2.1,
           pre ++ (handle_fault_area st va virt).2.2 :: post) := by
  intro pre
  induction pre with
  | nil =>
    intro va post _ hin
    rw [List.nil_append, handle_fault_walk, if_pos hin]
    rfl
  | cons a pre ih =>
    intro va post hpre hin
    rw [List.cons_append, handle_fault_walk,
      if_neg (hpre a (List.mem_cons_self ..)),
      ih va post (fun x hx => hpre x (List.mem_cons_of_mem _ hx)) hin]
    rfl

theorem lookupOrCreate_mappings (st : VMSt) (va : VMArea) (ino off : Nat) :
    (lookupOrCreate st va ino off).2.mappings = st.mappings := by
  unfold lookupOrCreate
  cases vmpage_lookup_locked st ino off <;> rfl

theorem lookupOrCreate_frames (st : VMSt) (va : VMArea) (ino off : Nat) :
    (lookupOrCreate st va ino off).2.frames = st.frames := by
  unfold lookupOrCreate
  cases vmpage_lookup_locked st ino off <;> rfl

/-- C5 (amended): when the file-backed fault path must fill a Pending
vm page and the backing read transfers fewer than `PAGE_SIZE` bytes,
`read_data` fails with `SHORT_READ`, but `vmspace_handle_fault` does not
return that error: it trips the `KASSERT(ananas_is_success(err), "cannot
deal with error %d")` and panics.  The frame is not attached, Pending is
not cleared, nothing is mapped and the area's page list is unchanged. -/
theorem short_read_panics (st : VMSt) (vs : VMSpace) (virt : Nat)
    (pre post : List VMArea) (va : VMArea) (dref : Nat)
    (hareas : vs.areas = pre ++ va :: post)
    (hpre : ∀ a ∈ pre, ¬(a.virt ≤ virt ∧ virt < a.virt + a.len))
    (hin : va.virt ≤ virt ∧ virt < va.virt + va.len)
    (hal : (va.flags.alloc || va.flags.lazy) = true)
    (hd : va.dentry = some dref)
    (hro : vPage virt - va.virt < va.dlength)
    (hpend : (getP (lookupOrCreate st va (getDent st dref).inode
          (readOffOf va virt)).2
        (lookupOrCreate st va (getDent st dref).inode
          (readOffOf va virt)).1).flags.pending = true)
    (hshort : min PAGE_SIZE ((getDent st dref).size - readOffOf va virt)
        ≠ PAGE_SIZE) :
    (vmspace_handle_fault st vs virt).1
      = Outcome.panicked "cannot deal with error"
    ∧ read_data (getDent st dref) (readOffOf va virt) PAGE_SIZE
        = Outcome.err ErrorCode.shortRead
    ∧ (vmspace_handle_fault st vs virt).2.2.areas = vs.areas
    ∧ (vmspace_handle_fault st vs virt).2.1.mappings = st.mappings
    ∧ (getP (vmspace_handle_fault st vs virt).2.1
        (lookupOrCreate st va (getDent st dref).inode
          (readOffOf va virt)).1).flags.pending = true
    ∧ (getP (vmspace_handle_fault st vs virt).2.1
        (lookupOrCreate st va (getDent st dref).inode
          (readOffOf va virt)).1).page
      = (getP (lookupOrCreate st va (getDent st dref).inode
          (readOffOf va virt)).2
        (lookupOrCreate st va (getDent st dref).inode
          (readOffOf va virt)).1).page := by
  have hread : read_data (getDent st dref) (readOffOf va virt) PAGE_SIZE
      = Outcome.err ErrorCode.shortRead := by
    unfold read_data
    rw [if_neg hshort]
  have harea : handle_fault_area st va virt
      = (Outcome.panicked "cannot deal with error",
         { (lookupOrCreate st va (getDent st dref).inode
             (readOffOf va virt)).2 with
           frames := (lookupOrCreate st va (getDent st dref).inode
             (readOffOf va virt)).2.frames ++ [0] },
         va) := by
    unfold handle_fault_area
    rw [if_neg (by rw [hal]; simp), hd]
    simp only
    rw [if_pos hro]
    unfold fileBackedFault
    simp only
    rw [if_pos hpend, hread]
  have hwalk := walk_first_match st virt pre va post hpre hin
  have hfault : vmspace_handle_fault st vs virt
      = ((handle_fault_area st va virt).1,
         (handle_fault_area st va virt).2.1,
         { areas := pre ++ (handle_fault_area st va virt).2.2 :: post }) := by
    unfold vmspace_handle_fault
    rw [hareas, hwalk]
  rw [hfault, harea]
  refine ⟨rfl, hread, ?_, ?_, hpend, rfl⟩
  · rw [hareas]
  · show (lookupOrCreate st va (getDent st dref).inode
        (readOffOf va virt)).2.mappings = st.mappings
    exact lookupOrCreate_mappings ..

/-- C5 counterexample: on the concrete short-backing scenario the fault
handler panics instead of failing with the ShortRead error — the claim
that `vmspace_handle_fault` fails with `SHORT_READ` is false, even though
the inner `read_data` does produce that error. -/
theorem short_read_fault_result_is_panic :
    read_data demoShortDent 0 PAGE_SIZE = Outcome.err ErrorCode.shortRead
    ∧ shortFault.1 ≠ Outcome.err ErrorCode.shortRead
    ∧ shortFault.1 = Outcome.panicked "cannot deal with error" := by
  refine ⟨by decide, ?_, by decide⟩
  intro h
  have h2 : shortFault.1 = Outcome.panicked "cannot deal with error" := by
    decide
  rw [h2] at h
  cases h

/-- Witness for the amended C5 theorem at the concrete short-read
scenario. -/
theorem short_read_panics_witness :
    shortFault.1 = Outcome.panicked "cannot deal with error"
    ∧ shortFault.2.2.areas = shortVs.areas
    ∧ shortFault.2.1.mappings = demoVmSt.mappings
    ∧ (getP shortFault.2.1 0).flags.pending = true
    ∧ (getP shortFault.2.1 0).page = none := by
  have h := short_read_panics demoVmSt shortVs 0x1000 [] [] shortArea 1
    rfl (by intro a ha; cases ha) (by decide) (by decide) (by decide)
    (by decide) (by decide) (by decide)
  refine ⟨h.1, h.2.2.1, h.2.2.2.1, ?_, ?_⟩
  · exact h.2.2.2.2.1
  · decide

/-! Evaluation lemmas for the modelled `vmpage` layer. -/

theorem getP_link_new (st : VMSt) (srcId : Nat) :
    getP (vmpage_link st srcId).2 st.vmpages.length
      = { flags := (getP st srcId).flags, page := (getP st srcId).page,
          vaddr := 0, refcount := 1 } := by
  show ((setP st srcId
      (fun pg => { pg with refcount := pg.refcount + 1 })).vmpages ++
        [_]).getD st.vmpages.length emptyPg = _
  rw [← setP_length st srcId (fun pg => { pg with refcount := pg.refcount + 1 })]
  exact getD_concat_self ..

theorem getP_link_src (st : VMSt) (srcId : Nat)
    (h : srcId < st.vmpages.length) :
    getP (vmpage_link st srcId).2 srcId
      = { getP st srcId with refcount := (getP st srcId).refcount + 1 } := by
  show ((setP st srcId
      (fun pg => { pg with refcount := pg.refcount + 1 })).vmpages ++
        [_]).getD srcId emptyPg = _
  rw [getD_append_lt _ _ _ _ (by rw [setP_length]; exact h)]
  exact getP_setP_self st srcId _ h

theorem link_mappings (st : VMSt) (srcId : Nat) :
    (vmpage_link st srcId).2.mappings = st.mappings := rfl

theorem link_frames (st : VMSt) (srcId : Nat) :
    (vmpage_link st srcId).2.frames = st.frames := rfl

theorem link_length (st : VMSt) (srcId : Nat) :
    (vmpage_link st srcId).2.vmpages.length = st.vmpages.length + 1 := by
  show ((setP st srcId _).vmpages ++ [_]).length = _
  rw [List.length_append, setP_length]
  rfl

theorem getP_create_new (st : VMSt) (fl : VMPageFlags) :
    getP (vmpage_create_private st fl).2 st.vmpages.length
      = { flags := fl, page := some st.frames.length, vaddr := 0,
          refcount := 1 } := by
  show (st.vmpages ++ [_]).getD st.vmpages.length emptyPg = _
  exact getD_concat_self ..

theorem getP_create_old (st : VMSt) (fl : VMPageFlags) (id : Nat)
    (h : id < st.vmpages.length) :
    getP (vmpage_create_private st fl).2 id = getP st id := by
  show (st.vmpages ++ [_]).getD id emptyPg = _
  exact getD_append_lt _ _ _ _ h

theorem create_frames (st : VMSt) (fl : VMPageFlags) :
    (vmpage_create_private st fl).2.frames = st.frames ++ [0] := rfl

theorem create_mappings (st : VMSt) (fl : VMPageFlags) :
    (vmpage_create_private st fl).2.mappings = st.mappings := rfl

theorem create_length (st : VMSt) (fl : VMPageFlags) :
    (vmpage_create_private st fl).2.vmpages.length
      = st.vmpages.length + 1 := by
  show (st.vmpages ++ [_]).length = _
  rw [List.length_append]
  rfl

theorem copy_vmpages (st : VMSt) (src dst : Nat) :
    (vmpage_copy st src dst).vmpages = st.vmpages := rfl

theorem copy_mappings (st : VMSt) (src dst : Nat) :
    (vmpage_copy st src dst).mappings = st.mappings := rfl

theorem getP_copy (st : VMSt) (src dst i : Nat) :
    getP (vmpage_copy st src dst) i = getP st i := rfl

/-- The share-or-copy tail of the file-backed fault path: the new page is
appended to the area, carries the page-aligned fault address and is mapped
with the area's flags; in the share case it aliases the source's frame, in
the copy case it owns a distinct fresh frame holding a copy of the source's
contents. -/
theorem finishFault_spec (st : VMSt) (va : VMArea) (virt srcId ro pa : Nat)
    (hpage : (getP st srcId).page = some pa)
    (hpa : pa < st.frames.length) :
    (finishFault st va virt srcId ro).1 = Outcome.ok ()
    ∧ (finishFault st va virt srcId ro).2.2
        = { va with pages := va.pages ++ [st.vmpages.length] }
    ∧ (getP (finishFault st va virt srcId ro).2.1 st.vmpages.length).vaddr
        = vPage virt
    ∧ (getP (finishFault st va virt srcId ro).2.1 srcId).page = some pa
    ∧ ((ro + PAGE_SIZE ≤ va.doffset + va.dlength ∧ va.flags.priv = false) →
        (getP (finishFault st va virt srcId ro).2.1
            st.vmpages.length).page = some pa
        ∧ (finishFault st va virt srcId ro).2.1.mappings
            = st.mappings ++ [(vPage virt, pa, va.flags)])
    ∧ (¬(ro + PAGE_SIZE ≤ va.doffset + va.dlength ∧ va.flags.priv = false) →
        (getP (finishFault st va virt srcId ro).2.1
            st.vmpages.length).page = some st.frames.length
        ∧ st.frames.length ≠ pa
        ∧ (getP (finishFault st va virt srcId ro).2.1
            st.vmpages.length).flags.priv = true
        ∧ frameVal (finishFault st va virt srcId ro).2.1 st.vmpages.length
            = frameVal (finishFault st va virt srcId ro).2.1 srcId
        ∧ (finishFault st va virt srcId ro).2.1.mappings
            = st.mappings ++ [(vPage virt, st.frames.length, va.flags)]) := by
  have hsrc_lt : srcId < st.vmpages.length := getP_page_lt hpage
  by_cases hc : (ro + PAGE_SIZE ≤ va.doffset + va.dlength)
      ∧ va.flags.priv = false
  · -- share: vmpage_link
    have heq : finishFault st va virt srcId ro
        = (Outcome.ok (),
           { setP (vmpage_link st srcId).2 st.vmpages.length
               (fun pg => { pg with vaddr := vPage virt }) with
             mappings := (setP (vmpage_link st srcId).2 st.vmpages.length
               (fun pg => { pg with vaddr := vPage virt })).mappings ++
               [(vPage virt,
                 (getP (setP (vmpage_link st srcId).2 st.vmpages.length
                   (fun pg => { pg with vaddr := vPage virt }))
                     st.vmpages.length).page.getD 0, va.flags)] },
           { va with pages := va.pages ++ [st.vmpages.length] }) := by
      unfold finishFault
      rw [if_pos hc]
      rfl
    have hnew_lt : st.vmpages.length
        < (vmpage_link st srcId).2.vmpages.length := by
      rw [link_length]
      omega
    have hgetnew : getP (setP (vmpage_link st srcId).2 st.vmpages.length
        (fun pg => { pg with vaddr := vPage virt })) st.vmpages.length
        = { flags := (getP st srcId).flags, page := (getP st srcId).page,
            vaddr := vPage virt, refcount := 1 } := by
      rw [getP_setP_self _ _ _ hnew_lt, getP_link_new]
    have hgetsrc : getP (setP (vmpage_link st srcId).2 st.vmpages.length
        (fun pg => { pg with vaddr := vPage virt })) srcId
        = { getP st srcId with
            refcount := (getP st srcId).refcount + 1 } := by
      rw [getP_setP_ne _ _ _ _ (by omega), getP_link_src st srcId hsrc_lt]
    rw [heq]
    refine ⟨rfl, rfl, ?_, ?_, ?_, fun hnc => absurd hc hnc⟩
    · show (getP (setP (vmpage_link st srcId).2 st.vmpages.length
        (fun pg => { pg with vaddr := vPage virt })) st.vmpages.length).vaddr
        = vPage virt
      rw [hgetnew]
    · show (getP (setP (vmpage_link st srcId).2 st.vmpages.length
        (fun pg => { pg with vaddr := vPage virt })) srcId).page = some pa
      rw [hgetsrc]
      exact hpage
    · intro _
      constructor
      · show (getP (setP (vmpage_link st srcId).2 st.vmpages.length
          (fun pg => { pg with vaddr := vPage virt }))
            st.vmpages.length).page = some pa
        rw [hgetnew]
        exact hpage
      · show (setP (vmpage_link st srcId).2 st.vmpages.length
            (fun pg => { pg with vaddr := vPage virt })).mappings ++ _
          = st.mappings ++ _
        rw [setP_mappings, link_mappings, hgetnew, hpage]
        rfl
  · -- copy: vmpage_create_private + vmpage_copy
    have heq : finishFault st va virt srcId ro
        = (Outcome.ok (),
           { setP (vmpage_copy (vmpage_create_private st (privFl va)).2
               srcId st.vmpages.length) st.vmpages.length
               (fun pg => { pg with vaddr := vPage virt }) with
             mappings := (setP (vmpage_copy
               (vmpage_create_private st (privFl va)).2
               srcId st.vmpages.length) st.vmpages.length
               (fun pg => { pg with vaddr := vPage virt })).mappings ++
               [(vPage virt,
                 (getP (setP (vmpage_copy
                   (vmpage_create_private st (privFl va)).2
                   srcId st.vmpages.length) st.vmpages.length
                   (fun pg => { pg with vaddr := vPage virt }))
                     st.vmpages.length).page.getD 0, va.flags)] },
           { va with pages := va.pages ++ [st.vmpages.length] }) := by
      unfold finishFault
      rw [if_neg hc]
      rfl
    have hcrnew : getP (vmpage_create_private st (privFl va)).2
        st.vmpages.length
        = { flags := privFl va, page := some st.frames.length, vaddr := 0,
            refcount := 1 } := getP_create_new ..
    have hcrsrc : getP (vmpage_create_private st (privFl va)).2 srcId
        = getP st srcId := getP_create_old _ _ _ hsrc_lt
    have hnew_lt : st.vmpages.length
        < (vmpage_copy (vmpage_create_private st (privFl va)).2
            srcId st.vmpages.length).vmpages.length := by
      rw [copy_vmpages, create_length]
      omega
    have hgetnew : getP (setP (vmpage_copy
        (vmpage_create_private st (privFl va)).2 srcId st.vmpages.length)
        st.vmpages.length (fun pg => { pg with vaddr := vPage virt }))
          st.vmpages.length
        = { flags := privFl va, page := some st.frames.length,
            vaddr := vPage virt, refcount := 1 } := by
      rw [getP_setP_self _ _ _ hnew_lt, getP_copy, hcrnew]
    have hgetsrc : getP (setP (vmpage_copy
        (vmpage_create_private st (privFl va)).2 srcId st.vmpages.length)
        st.vmpages.length (fun pg => { pg with vaddr := vPage virt }))
          srcId = getP st srcId := by
      rw [getP_setP_ne _ _ _ _ (by omega), getP_copy, hcrsrc]
    have hframes : (setP (vmpage_copy
        (vmpage_create_private st (privFl va)).2 srcId st.vmpages.length)
        st.vmpages.length
        (fun pg => { pg with vaddr := vPage virt })).frames
        = (st.frames ++ [0]).set st.frames.length
            ((st.frames ++ [0]).getD pa 0) := by
      rw [setP_frames]
      show ((vmpage_create_private st (privFl va)).2.frames).set
          ((getP (vmpage_create_private st (privFl va)).2
            st.vmpages.length).page.getD 0)
          ((vmpage_create_private st (privFl va)).2.frames.getD
            ((getP (vmpage_create_private st (privFl va)).2
              srcId).page.getD 0) 0) = _
      rw [hcrnew, hcrsrc, hpage, create_frames]
      rfl
    rw [heq]
    refine ⟨rfl, rfl, ?_, ?_, fun hcc => absurd hcc hc, fun _ =>
      ⟨?_, by omega, ?_, ?_, ?_⟩⟩
    · show (getP (setP (vmpage_copy
        (vmpage_create_private st (privFl va)).2 srcId st.vmpages.length)
        st.vmpages.length (fun pg => { pg with vaddr := vPage virt }))
          st.vmpages.length).vaddr = vPage virt
      rw [hgetnew]
    · show (getP (setP (vmpage_copy
        (vmpage_create_private st (privFl va)).2 srcId st.vmpages.length)
        st.vmpages.length (fun pg => { pg with vaddr := vPage virt }))
          srcId).page = some pa
      rw [hgetsrc]
      exact hpage
    · show (getP (setP (vmpage_copy
        (vmpage_create_private st (privFl va)).2 srcId st.vmpages.length)
        st.vmpages.length (fun pg => { pg with vaddr := vPage virt }))
          st.vmpages.length).page = some st.frames.length
      rw [hgetnew]
    · show (getP (setP (vmpage_copy
        (vmpage_create_private st (privFl va)).2 srcId st.vmpages.length)
        st.vmpages.length (fun pg => { pg with vaddr := vPage virt }))
          st.vmpages.length).flags.priv = true
      rw [hgetnew]
      rfl
    · unfold frameVal
      show ((setP (vmpage_copy
          (vmpage_create_private st (privFl va)).2 srcId st.vmpages.length)
          st.vmpages.length
          (fun pg => { pg with vaddr := vPage virt })).frames).getD
            ((getP (setP (vmpage_copy
              (vmpage_create_private st (privFl va)).2 srcId
              st.vmpages.length) st.vmpages.length
              (fun pg => { pg with vaddr := vPage virt }))
                st.vmpages.length).page.getD 0) 0
          = ((setP (vmpage_copy
              (vmpage_create_private st (privFl va)).2 srcId
              st.vmpages.length) st.vmpages.length
              (fun pg => { pg with vaddr := vPage virt })).frames).getD
            ((getP (setP (vmpage_copy
              (vmpage_create_private st (privFl va)).2 srcId
              st.vmpages.length) st.vmpages.length
              (fun pg => { pg with vaddr := vPage virt }))
                srcId).page.getD 0) 0
      rw [hgetnew, hgetsrc, hframes, hpage]
      show ((st.frames ++ [0]).set st.frames.length
          ((st.frames ++ [0]).getD pa 0)).getD st.frames.length 0
        = ((st.frames ++ [0]).set st.frames.length
          ((st.frames ++ [0]).getD pa 0)).getD pa 0
      rw [getD_set_self _ _ _ _ (by simp),
        getD_set_ne _ _ _ _ _ (by omega)]
    · show (setP (vmpage_copy
          (vmpage_create_private st (privFl va)).2 srcId st.vmpages.length)
          st.vmpages.length
          (fun pg => { pg with vaddr := vPage virt })).mappings ++ _
        = st.mappings ++ _
      rw [setP_mappings, copy_mappings, create_mappings, hgetnew]
      rfl

theorem getP_cshared_new (st : VMSt) (ino off : Nat) (fl : VMPageFlags) :
    getP (vmpage_create_shared st ino off fl).2 st.vmpages.length
      = { flags := fl, page := none, vaddr := 0, refcount := 1 } := by
  show (st.vmpages ++ [_]).getD st.vmpages.length emptyPg = _
  exact getD_concat_self ..

theorem cshared_frames (st : VMSt) (ino off : Nat) (fl : VMPageFlags) :
    (vmpage_create_shared st ino off fl).2.frames = st.frames := rfl

theorem cshared_mappings (st : VMSt) (ino off : Nat) (fl : VMPageFlags) :
    (vmpage_create_shared st ino off fl).2.mappings = st.mappings := rfl

theorem cshared_length (st : VMSt) (ino off : Nat) (fl : VMPageFlags) :
    (vmpage_create_shared st ino off fl).2.vmpages.length
      = st.vmpages.length + 1 := by
  show (st.vmpages ++ [_]).length = _
  rw [List.length_append]
  rfl

theorem fillState_mappings (b : VMSt) (dent : Dentry) (ro i : Nat) :
    (fillState b dent ro i).mappings = b.mappings := rfl

theorem fillState_frames_length (b : VMSt) (dent : Dentry) (ro i : Nat) :
    (fillState b dent ro i).frames.length = b.frames.length + 1 := by
  unfold fillState
  rw [setP_frames]
  show ((b.frames ++ [0]).set _ _).length = _
  rw [List.length_set, List.length_append]
  rfl

theorem getP_fillState_self (b : VMSt) (dent : Dentry) (ro i : Nat)
    (h : i < b.vmpages.length) :
    getP (fillState b dent ro i) i
      = { getP b i with
          page := some b.frames.length,
          flags := { (getP b i).flags with pending := false } } := by
  unfold fillState
  exact getP_setP_self _ _ _ h

/-- The file-backed fault branch, fully characterised under the claim's
premise that the shared vm page ends up resident (found resident, or
Pending and fillable by a full-page read): the handler succeeds, appends
one new vm page to the area carrying the aligned fault address, and maps
it with the area's flags — aliasing the shared page's frame when the whole
page lies in the backed slice and the area is not Private, else a fresh
private frame holding a copy of the shared frame's contents. -/
theorem fileBackedFault_spec (st : VMSt) (va : VMArea) (virt dref : Nat)
    (hwf : ∀ id pa, (getP st id).page = some pa → pa < st.frames.length)
    (hres : (getP (lookupOrCreate st va (getDent st dref).inode
          (readOffOf va virt)).2
        (lookupOrCreate st va (getDent st dref).inode
          (readOffOf va virt)).1).flags.pending = false →
      ∃ pa, (getP (lookupOrCreate st va (getDent st dref).inode
          (readOffOf va virt)).2
        (lookupOrCreate st va (getDent st dref).inode
          (readOffOf va virt)).1).page = some pa)
    (hfill : (getP (lookupOrCreate st va (getDent st dref).inode
          (readOffOf va virt)).2
        (lookupOrCreate st va (getDent st dref).inode
          (readOffOf va virt)).1).flags.pending = true →
      min PAGE_SIZE ((getDent st dref).size - readOffOf va virt)
        = PAGE_SIZE) :
    (fileBackedFault st va virt dref).1 = Outcome.ok ()
    ∧ ∃ newId pa,
      (fileBackedFault st va virt dref).2.2
          = { va with pages := va.pages ++ [newId] }
      ∧ (getP (fileBackedFault st va virt dref).2.1 newId).vaddr
          = vPage virt
      ∧ (getP (fileBackedFault st va virt dref).2.1
          (lookupOrCreate st va (getDent st dref).inode
            (readOffOf va virt)).1).page = some pa
      ∧ ((readOffOf va virt + PAGE_SIZE ≤ va.doffset + va.dlength
          ∧ va.flags.priv = false) →
        (getP (fileBackedFault st va virt dref).2.1 newId).page = some pa
        ∧ (fileBackedFault st va virt dref).2.1.mappings
            = st.mappings ++ [(vPage virt, pa, va.flags)])
      ∧ (¬(readOffOf va virt + PAGE_SIZE ≤ va.doffset + va.dlength
          ∧ va.flags.priv = false) →
        ∃ npa, (getP (fileBackedFault st va virt dref).2.1 newId).page
            = some npa
          ∧ npa ≠ pa
          ∧ (getP (fileBackedFault st va virt dref).2.1 newId).flags.priv
              = true
          ∧ frameVal (fileBackedFault st va virt dref).2.1 newId
              = frameVal (fileBackedFault st va virt dref).2.1
                (lookupOrCreate st va (getDent st dref).inode
                  (readOffOf va virt)).1
          ∧ (fileBackedFault st va virt dref).2.1.mappings
              = st.mappings ++ [(vPage virt, npa, va.flags)]) := by
  cases hlook : vmpage_lookup_locked st (getDent st dref).inode
      (readOffOf va virt) with
  | some id =>
    have hlc : lookupOrCreate st va (getDent st dref).inode
        (readOffOf va virt) = (id, st) := by
      unfold lookupOrCreate
      rw [hlook]
    simp only [hlc] at hres hfill ⊢
    by_cases hpend : (getP st id).flags.pending = true
    · -- Pending: fill from the backing dentry, then share or copy
      have hid_lt : id < st.vmpages.length := getP_pending_lt hpend
      have hread : read_data (getDent st dref) (readOffOf va virt) PAGE_SIZE
          = Outcome.ok () := by
        unfold read_data
        rw [if_pos (hfill hpend)]
      have heq : fileBackedFault st va virt dref
          = finishFault (fillState st (getDent st dref) (readOffOf va virt)
              id) va virt id (readOffOf va virt) := by
        unfold fileBackedFault
        simp only [hlc]
        rw [if_pos hpend, hread]
        rfl
      have hpage : (getP (fillState st (getDent st dref)
          (readOffOf va virt) id) id).page = some st.frames.length := by
        rw [getP_fillState_self st _ _ _ hid_lt]
      have hpa : st.frames.length < (fillState st (getDent st dref)
          (readOffOf va virt) id).frames.length := by
        rw [fillState_frames_length]
        omega
      have H := finishFault_spec _ va virt id (readOffOf va virt)
        st.frames.length hpage hpa
      rw [heq]
      have hm : (fillState st (getDent st dref) (readOffOf va virt)
          id).mappings = st.mappings := rfl
      rw [hm] at H
      exact ⟨H.1, _, st.frames.length, H.2.1, H.2.2.1, H.2.2.2.1,
        fun hC => H.2.2.2.2.1 hC,
        fun hnC => ⟨_, (H.2.2.2.2.2 hnC).1, (H.2.2.2.2.2 hnC).2.1,
          (H.2.2.2.2.2 hnC).2.2.1, (H.2.2.2.2.2 hnC).2.2.2.1,
          (H.2.2.2.2.2 hnC).2.2.2.2⟩⟩
    · -- resident: no fill, straight to share or copy
      obtain ⟨pa, hpage⟩ := hres (by
        revert hpend
        cases (getP st id).flags.pending <;> simp)
      have heq : fileBackedFault st va virt dref
          = finishFault st va virt id (readOffOf va virt) := by
        unfold fileBackedFault
        simp only [hlc]
        rw [if_neg hpend]
      have H := finishFault_spec st va virt id (readOffOf va virt) pa
        hpage (hwf _ _ hpage)
      rw [heq]
      exact ⟨H.1, _, pa, H.2.1, H.2.2.1, H.2.2.2.1,
        fun hC => H.2.2.2.2.1 hC,
        fun hnC => ⟨_, (H.2.2.2.2.2 hnC).1, (H.2.2.2.2.2 hnC).2.1,
          (H.2.2.2.2.2 hnC).2.2.1, (H.2.2.2.2.2 hnC).2.2.2.1,
          (H.2.2.2.2.2 hnC).2.2.2.2⟩⟩
  | none =>
    -- absent: create a shared Pending page, fill it, then share or copy
    have hlc : lookupOrCreate st va (getDent st dref).inode
        (readOffOf va virt)
        = (st.vmpages.length,
           (vmpage_create_shared st (getDent st dref).inode
             (readOffOf va virt)
             { pending := true, readonly := pageFlagsFromVa va.flags,
               priv := false }).2) := by
      unfold lookupOrCreate
      rw [hlook]
      rfl
    simp only [hlc] at hres hfill ⊢
    have hpendC : (getP (vmpage_create_shared st (getDent st dref).inode
        (readOffOf va virt)
        { pending := true, readonly := pageFlagsFromVa va.flags,
          priv := false }).2 st.vmpages.length).flags.pending = true := by
      rw [getP_cshared_new]
    have hid_lt : st.vmpages.length
        < (vmpage_create_shared st (getDent st dref).inode
            (readOffOf va virt)
            { pending := true, readonly := pageFlagsFromVa va.flags,
              priv := false }).2.vmpages.length := by
      rw [cshared_length]
      omega
    have hread : read_data (getDent st dref) (readOffOf va virt) PAGE_SIZE
        = Outcome.ok () := by
      unfold read_data
      rw [if_pos (hfill hpendC)]
    have heq : fileBackedFault st va virt dref
        = finishFault (fillState (vmpage_create_shared st
            (getDent st dref).inode (readOffOf va virt)
            { pending := true, readonly := pageFlagsFromVa va.flags,
              priv := false }).2 (getDent st dref) (readOffOf va virt)
            st.vmpages.length)
            va virt st.vmpages.length (readOffOf va virt) := by
      unfold fileBackedFault
      simp only [hlc]
      rw [if_pos hpendC, hread]
      rfl
    have hpage : (getP (fillState (vmpage_create_shared st
        (getDent st dref).inode (readOffOf va virt)
        { pending := true, readonly := pageFlagsFromVa va.flags,
          priv := false }).2 (getDent st dref) (readOffOf va virt)
        st.vmpages.length) st.vmpages.length).page
        = some st.frames.length := by
      rw [getP_fillState_self _ _ _ _ hid_lt]
      rfl
    have hpa : st.frames.length < (fillState (vmpage_create_shared st
        (getDent st dref).inode (readOffOf va virt)
        { pending := true, readonly := pageFlagsFromVa va.flags,
          priv := false }).2 (getDent st dref) (readOffOf va virt)
        st.vmpages.length).frames.length := by
      rw [fillState_frames_length, cshared_frames]
      omega
    have H := finishFault_spec _ va virt st.vmpages.length
      (readOffOf va virt) st.frames.length hpage hpa
    rw [heq]
    have hm : (fillState (vmpage_create_shared st
        (getDent st dref).inode (readOffOf va virt)
        { pending := true, readonly := pageFlagsFromVa va.flags,
          priv := false }).2 (getDent st dref) (readOffOf va virt)
        st.vmpages.length).mappings = st.mappings := rfl
    rw [hm] at H
    exact ⟨H.1, _, st.frames.length, H.2.1, H.2.2.1, H.2.2.2.1,
      fun hC => H.2.2.2.2.1 hC,
      fun hnC => ⟨_, (H.2.2.2.2.2 hnC).1, (H.2.2.2.2.2 hnC).2.1,
        (H.2.2.2.2.2 hnC).2.2.1, (H.2.2.2.2.2 hnC).2.2.2.1,
        (H.2.2.2.2.2 hnC).2.2.2.2⟩⟩

/-- C2: for every page fault in a file-backed vmarea (the first area of the
address space containing the fault address, with `ALLOC | LAZY` set, a
backing dentry and the aligned offset inside the backed slice) whose shared
vm page is resident or freshly read (Pending cleared): the handler
succeeds, creating a new vm page whose `vp_vaddr` is the page-aligned fault
address, appending it to the area's page list, and mapping it through the
MD layer with the area's permission flags.  If the whole page lies within
the backed slice and the area is not Private, the new page is a link
aliasing the shared page's physical frame (zero-copy share); otherwise it
is a fresh private page whose own frame receives a copy of the source
frame's contents. -/
theorem fault_file_backed_shares_or_copies
    (st : VMSt) (vs : VMSpace) (virt : Nat)
    (pre post : List VMArea) (va : VMArea) (dref : Nat)
    (hareas : vs.areas = pre ++ va :: post)
    (hpre : ∀ a ∈ pre, ¬(a.virt ≤ virt ∧ virt < a.virt + a.len))
    (hin : va.virt ≤ virt ∧ virt < va.virt + va.len)
    (hal : (va.flags.alloc || va.flags.lazy) = true)
    (hd : va.dentry = some dref)
    (hro : vPage virt - va.virt < va.dlength)
    (hwf : ∀ id pa, (getP st id).page = some pa → pa < st.frames.length)
    (hres : (getP (lookupOrCreate st va (getDent st dref).inode
          (readOffOf va virt)).2
        (lookupOrCreate st va (getDent st dref).inode
          (readOffOf va virt)).1).flags.pending = false →
      ∃ pa, (getP (lookupOrCreate st va (getDent st dref).inode
          (readOffOf va virt)).2
        (lookupOrCreate st va (getDent st dref).inode
          (readOffOf va virt)).1).page = some pa)
    (hfill : (getP (lookupOrCreate st va (getDent st dref).inode
          (readOffOf va virt)).2
        (lookupOrCreate st va (getDent st dref).inode
          (readOffOf va virt)).1).flags.pending = true →
      min PAGE_SIZE ((getDent st dref).size - readOffOf va virt)
        = PAGE_SIZE) :
    (vmspace_handle_fault st vs virt).1 = Outcome.ok ()
    ∧ ∃ newId pa,
      (vmspace_handle_fault st vs virt).2.2.areas
          = pre ++ { va with pages := va.pages ++ [newId] } :: post
      ∧ (getP (vmspace_handle_fault st vs virt).2.1 newId).vaddr
          = vPage virt
      ∧ (getP (vmspace_handle_fault st vs virt).2.1
          (lookupOrCreate st va (getDent st dref).inode
            (readOffOf va virt)).1).page = some pa
      ∧ ((readOffOf va virt + PAGE_SIZE ≤ va.doffset + va.dlength
          ∧ va.flags.priv = false) →
        (getP (vmspace_handle_fault st vs virt).2.1 newId).page = some pa
        ∧ (vmspace_handle_fault st vs virt).2.1.mappings
            = st.mappings ++ [(vPage virt, pa, va.flags)])
      ∧ (¬(readOffOf va virt + PAGE_SIZE ≤ va.doffset + va.dlength
          ∧ va.flags.priv = false) →
        ∃ npa, (getP (vmspace_handle_fault st vs virt).2.1 newId).page
            = some npa
          ∧ npa ≠ pa
          ∧ (getP (vmspace_handle_fault st vs virt).2.1 newId).flags.priv
              = true
          ∧ frameVal (vmspace_handle_fault st vs virt).2.1 newId
              = frameVal (vmspace_handle_fault st vs virt).2.1
                (lookupOrCreate st va (getDent st dref).inode
                  (readOffOf va virt)).1
          ∧ (vmspace_handle_fault st vs virt).2.1.mappings
              = st.mappings ++ [(vPage virt, npa, va.flags)]) := by
  have harea : handle_fault_area st va virt
      = fileBackedFault st va virt dref := by
    unfold handle_fault_area
    rw [if_neg (by rw [hal]; simp), hd]
    simp only
    rw [if_pos hro]
  have hwalk := walk_first_match st virt pre va post hpre hin
  have hfault : vmspace_handle_fault st vs virt
      = ((fileBackedFault st va virt dref).1,
         (fileBackedFault st va virt dref).2.1,
         { areas := pre ++ (fileBackedFault st va virt dref).2.2 :: post }) := by
    unfold vmspace_handle_fault
    rw [hareas, hwalk, harea]
  have H := fileBackedFault_spec st va virt dref hwf hres hfill
  rw [hfault]
  obtain ⟨h1, newId, pa, h2, h3, h4, h5, h6⟩ := H
  refine ⟨h1, newId, pa, ?_, h3, h4, h5, h6⟩
  show pre ++ (fileBackedFault st va virt dref).2.2 :: post = _
  rw [h2]

/-- Witness for C2: the spec's two-address-space scenario.  An 8 KiB
file-backed read-only area faulted at `0x40000000` succeeds with a link
page mapping physical frame 0; a second address space faulting the same
`(inode, offset)` against the resulting global state maps the very same
frame (zero-copy sharing), not a copy. -/
theorem fault_file_backed_shares_or_copies_witness :
    demoFault1.1 = Outcome.ok ()
    ∧ (∃ newId pa,
      demoFault1.2.2.areas
          = [] ++ { demoArea with pages := demoArea.pages ++ [newId] } :: []
      ∧ (getP demoFault1.2.1 newId).vaddr = vPage 0x40000000
      ∧ (getP demoFault1.2.1
          (lookupOrCreate demoVmSt demoArea
            (getDent demoVmSt 0).inode
            (readOffOf demoArea 0x40000000)).1).page = some pa
      ∧ ((readOffOf demoArea 0x40000000 + PAGE_SIZE
          ≤ demoArea.doffset + demoArea.dlength
          ∧ demoArea.flags.priv = false) →
        (getP demoFault1.2.1 newId).page = some pa
        ∧ demoFault1.2.1.mappings
            = demoVmSt.mappings
              ++ [(vPage 0x40000000, pa, demoArea.flags)])
      ∧ (¬(readOffOf demoArea 0x40000000 + PAGE_SIZE
          ≤ demoArea.doffset + demoArea.dlength
          ∧ demoArea.flags.priv = false) →
        ∃ npa, (getP demoFault1.2.1 newId).page = some npa
          ∧ npa ≠ pa
          ∧ (getP demoFault1.2.1 newId).flags.priv = true
          ∧ frameVal demoFault1.2.1 newId
              = frameVal demoFault1.2.1
                (lookupOrCreate demoVmSt demoArea
                  (getDent demoVmSt 0).inode
                  (readOffOf demoArea 0x40000000)).1
          ∧ demoFault1.2.1.mappings
              = demoVmSt.mappings
                ++ [(vPage 0x40000000, npa, demoArea.flags)]))
    ∧ demoFault1.2.1.mappings = [(0x40000000, 0, demoFlagsRU)]
    ∧ demoFault2.2.1.mappings
        = [(0x40000000, 0, demoFlagsRU), (0x40000000, 0, demoFlagsRU)] := by
  have h := fault_file_backed_shares_or_copies demoVmSt demoVs 0x40000000
    [] [] demoArea 0 rfl (by intro a ha; cases ha) (by decide) (by decide)
    (by decide) (by decide)
    (by
      intro id pa hp
      rw [show getP demoVmSt id = emptyPg from
        List.getD_eq_default _ _ (by exact Nat.zero_le id)] at hp
      cases hp)
    (by
      intro hfalse
      exact absurd hfalse (by decide))
    (by decide)
  exact ⟨h.1, h.2, by decide, by decide⟩

end VM

/-! ## UHCI theorems -/

namespace UHCI

theorem setTD_length (st : HCDState) (i : Nat) (f : TD → TD) :
    (setTD st i f).tds.length = st.tds.length := List.length_set ..

theorem setTD_scheduledItems (st : HCDState) (i : Nat) (f : TD → TD) :
    (setTD st i f).scheduledItems = st.scheduledItems := rfl

theorem setTD_qhInterruptElem (st : HCDState) (i : Nat) (f : TD → TD) :
    (setTD st i f).qhInterruptElem = st.qhInterruptElem := rfl

theorem getTD_setTD_ne (st : HCDState) (i : Nat) (f : TD → TD) (j : Nat)
    (h : i ≠ j) : getTD (setTD st i f) j = getTD st j := by
  unfold getTD setTD
  exact getD_set_ne _ _ _ _ _ h

theorem getTD_setTD_self (st : HCDState) (i : Nat) (f : TD → TD)
    (h : i < st.tds.length) : getTD (setTD st i f) i = f (getTD st i) := by
  unfold getTD setTD
  exact getD_set_self _ _ _ _ h

/-- `CreateDataTDs` only allocates TDs: the scheduled-item list and the
interrupt-QH element pointers are untouched. -/
theorem createLoop_frame (mps : Nat) (pid : PID) (ls : Bool)
    (ep adr size : Nat) :
    ∀ (count i : Nat) (st : HCDState) (link : Option Nat) (cur : Nat)
      (tok : Bool) (last : Option Nat),
      (createLoop mps pid ls ep adr size count i st link cur tok
          last).1.scheduledItems = st.scheduledItems
      ∧ (createLoop mps pid ls ep adr size count i st link cur tok
          last).1.qhInterruptElem = st.qhInterruptElem := by
  intro count
  induction count with
  | zero => intro i st link cur tok last; exact ⟨rfl, rfl⟩
  | succ n ih =>
    intro i st link cur tok last
    exact ih (i + 1) _ _ _ _ _

theorem createDataTDs_frame (st : HCDState) (data size mps : Nat)
    (pid : PID) (ls : Bool) (ep adr : Nat) (link : Option Nat) :
    (createDataTDs st data size mps pid ls ep adr link).1.scheduledItems
        = st.scheduledItems
    ∧ (createDataTDs st data size mps pid ls ep adr
        link).1.qhInterruptElem = st.qhInterruptElem :=
  createLoop_frame mps pid ls ep adr size ((size + mps - 1) / mps) 0 st
    link (data + size) (((size + mps - 1) / mps) % 2 == 1) none

/-- C3 (code bug): the claimed data-stage chunking breaks down whenever the
control transfer's data length is a proper multiple of the endpoint's max
packet size.  With `t_length = 16` and `ud_max_packet_sz0 = 8` the first
(hardware-last) chunk is computed as `size % max_packet_size = 0`, so the
chunks do not cover the buffer and `CreateDataTDs` trips its own
`KASSERT(cur_data_ptr == data, "bug")`: `ScheduleControlTransfer` panics
instead of building the claimed SETUP→DATA→HANDSHAKE chain. -/
theorem control_twice_mps_trips_bug_assert :
    (createDataTDs emptyHCD 0x5000 16 8 PID.inp false 0 1 none).2.2.2
        = false
    ∧ (scheduleControlTransfer emptyHCD 0 ctrlXfer16).2
        = Outcome.panicked "bug" := by decide

/-- On a transfer where the chunking does work out (the spec's
`get_max_lun` scenario: one data byte), the hardware-visible chain is
SETUP (PID=SETUP, DATA0, buffer = the control request, maxlen 8) →
DATA (PID=IN, DATA1, maxlen 1) → HANDSHAKE (PID=OUT, DATA1, IOC,
terminating link); the scheduled item carries the SETUP TD and the
LS-control QH element pointer points at it. -/
theorem control_chain_good_case :
    maxLunSched.2 = Outcome.ok ()
    ∧ chainToList maxLunSched.1 10 maxLunSched.1.qhLsControlElem
        = [2, 1, 0]
    ∧ getTD maxLunSched.1 2
        = { link := some 1, ioc := false, active := true, ls := false,
            pid := PID.setup, toggle := false, maxlen := 8, ep := 0,
            adr := 1, buffer := 0x6000 }
    ∧ getTD maxLunSched.1 1
        = { link := some 0, ioc := false, active := true, ls := false,
            pid := PID.inp, toggle := true, maxlen := 1, ep := 0,
            adr := 1, buffer := 0x5000 }
    ∧ getTD maxLunSched.1 0
        = { link := none, ioc := true, active := true, ls := false,
            pid := PID.out, toggle := true, maxlen := 0, ep := 0,
            adr := 1, buffer := 0 }
    ∧ maxLunSched.1.scheduledItems = [(2, 0)] := by decide

/-- Counterexample to C7 as stated: an interrupt transfer requesting an
8 ms period belongs in interrupt QH index 3 (periods 1/2/4/8/16/32 ms),
but the scheduler publishes its chain into the element pointer of QH
index 0 and leaves index 3 empty. -/
theorem interrupt_8ms_published_at_index_zero :
    appropriateQHIndex intrXfer8ms.interval = 3
    ∧ intrSched8.2 = Outcome.ok ()
    ∧ intrSched8.1.qhInterruptElem
        = [some 0, none, none, none, none, none]
    ∧ intrSched8.1.qhInterruptElem.getD 3 none = none := by decide

/-- C7 (amended): for every scheduled interrupt transfer whose data chain
is built (the chunking assert passes and at least one TD exists), the last
TD of the chain gets interrupt-on-completion and the first TD's data
toggle is cleared; a scheduled item carrying the chain head is appended,
and the chain is published into the element pointer of interrupt QH
**index 0** — the 1 ms QH — regardless of the transfer's requested
interval. -/
theorem interrupt_schedule_ioc_qh0 (st : HCDState) (xferId : Nat)
    (x : Transfer) (headId lastId : Nat)
    (hok : (createDataTDs st x.dataAddr x.length x.maxPacketSz0
        (if x.read then PID.inp else PID.out) x.lowSpeed x.endpoint
        x.address none).2.2.2 = true)
    (hlast : (createDataTDs st x.dataAddr x.length x.maxPacketSz0
        (if x.read then PID.inp else PID.out) x.lowSpeed x.endpoint
        x.address none).2.2.1 = some lastId)
    (hhead : (createDataTDs st x.dataAddr x.length x.maxPacketSz0
        (if x.read then PID.inp else PID.out) x.lowSpeed x.endpoint
        x.address none).2.1 = some headId)
    (hl : lastId < (createDataTDs st x.dataAddr x.length x.maxPacketSz0
        (if x.read then PID.inp else PID.out) x.lowSpeed x.endpoint
        x.address none).1.tds.length)
    (hh : headId < (createDataTDs st x.dataAddr x.length x.maxPacketSz0
        (if x.read then PID.inp else PID.out) x.lowSpeed x.endpoint
        x.address none).1.tds.length) :
    (scheduleInterruptTransfer st xferId x).2 = Outcome.ok ()
    ∧ (getTD (scheduleInterruptTransfer st xferId x).1 lastId).ioc = true
    ∧ (getTD (scheduleInterruptTransfer st xferId x).1 headId).toggle
        = false
    ∧ (scheduleInterruptTransfer st xferId x).1.scheduledItems
        = st.scheduledItems ++ [(headId, xferId)]
    ∧ (scheduleInterruptTransfer st xferId x).1.qhInterruptElem
        = st.qhInterruptElem.set 0 (some headId) := by
  unfold scheduleInterruptTransfer publishInterrupt
  simp only [hok, hlast, hhead]
  refine ⟨by trivial, ?_, ?_, ?_, ?_⟩
  · show (getTD (setTD (setTD (createDataTDs st x.dataAddr x.length
        x.maxPacketSz0 (if x.read then PID.inp else PID.out) x.lowSpeed
        x.endpoint x.address none).1 lastId
        (fun td => { td with ioc := true })) headId
        (fun td => { td with toggle := false })) lastId).ioc = true
    by_cases hcase : headId = lastId
    · subst hcase
      rw [getTD_setTD_self _ _ _ (by rw [setTD_length]; exact hl),
        getTD_setTD_self _ _ _ hl]
    · rw [getTD_setTD_ne _ _ _ _ hcase, getTD_setTD_self _ _ _ hl]
  · show (getTD (setTD (setTD (createDataTDs st x.dataAddr x.length
        x.maxPacketSz0 (if x.read then PID.inp else PID.out) x.lowSpeed
        x.endpoint x.address none).1 lastId
        (fun td => { td with ioc := true })) headId
        (fun td => { td with toggle := false })) headId).toggle = false
    rw [getTD_setTD_self _ _ _ (by rw [setTD_length]; exact hh)]
  · show (createDataTDs st x.dataAddr x.length x.maxPacketSz0
        (if x.read then PID.inp else PID.out) x.lowSpeed x.endpoint
        x.address none).1.scheduledItems ++ [(headId, xferId)]
        = st.scheduledItems ++ [(headId, xferId)]
    rw [(createDataTDs_frame st x.dataAddr x.length x.maxPacketSz0
      (if x.read then PID.inp else PID.out) x.lowSpeed x.endpoint
      x.address none).1]
  · show ((createDataTDs st x.dataAddr x.length x.maxPacketSz0
        (if x.read then PID.inp else PID.out) x.lowSpeed x.endpoint
        x.address none).1.qhInterruptElem).set 0 (some headId)
        = st.qhInterruptElem.set 0 (some headId)
    rw [(createDataTDs_frame st x.dataAddr x.length x.maxPacketSz0
      (if x.read then PID.inp else PID.out) x.lowSpeed x.endpoint
      x.address none).2]

/-- Witness for C7: the 8 ms interrupt transfer (a single data TD, so
head = last = TD 0): IOC set, toggle cleared, scheduled item appended,
published into QH index 0. -/
theorem interrupt_schedule_ioc_qh0_witness :
    (scheduleInterruptTransfer emptyHCD 5 intrXfer8ms).2 = Outcome.ok ()
    ∧ (getTD (scheduleInterruptTransfer emptyHCD 5 intrXfer8ms).1 0).ioc
        = true
    ∧ (getTD (scheduleInterruptTransfer emptyHCD 5
        intrXfer8ms).1 0).toggle = false
    ∧ (scheduleInterruptTransfer emptyHCD 5
        intrXfer8ms).1.scheduledItems
        = emptyHCD.scheduledItems ++ [(0, 5)]
    ∧ (scheduleInterruptTransfer emptyHCD 5
        intrXfer8ms).1.qhInterruptElem
        = emptyHCD.qhInterruptElem.set 0 (some 0) :=
  interrupt_schedule_ioc_qh0 emptyHCD 5 intrXfer8ms 0 0 (by decide)
    (by decide) (by decide) (by decide) (by decide)

end UHCI

/-! ## USB mass storage theorems -/

namespace Storage

/-- C6: a `PerformSCSIRequest` on a supported CDB length whose bulk
transport completed with a 13-byte CSW returns Ok iff the CSW's signature
is `0x53425355`, its tag equals the tag placed in the posted CBW, and its
status is Good (0); any mismatch yields `ANANAS_ERROR(IO)`. -/
theorem performSCSI_csw_validation (lun : Nat) (dirIn : Bool)
    (cbLen resultLen : Nat) (csw : CSW)
    (hcb : cbLen = 6 ∨ cbLen = 10) :
    (performSCSIRequestResult lun dirIn cbLen resultLen csw
        = Outcome.ok ()
      ↔ (csw.signature = CSW_SIGNATURE
        ∧ csw.tag = (buildCBW lun dirIn cbLen resultLen).tag
        ∧ csw.status = 0))
    ∧ (¬(csw.signature = CSW_SIGNATURE
        ∧ csw.tag = (buildCBW lun dirIn cbLen resultLen).tag
        ∧ csw.status = 0)
      → performSCSIRequestResult lun dirIn cbLen resultLen csw
          = Outcome.err ErrorCode.io) := by
  have hc : ¬(cbLen ≠ 6 ∧ cbLen ≠ 10) := by
    rcases hcb with h | h <;> simp [h]
  by_cases h1 : csw.signature = CSW_SIGNATURE <;>
    by_cases h2 : csw.tag = (buildCBW lun dirIn cbLen resultLen).tag <;>
    by_cases h3 : csw.status = 0 <;>
    simp [performSCSIRequestResult, buildCBW, hc, h1, h2, h3] at h2 ⊢

/-- Witness for C6: a 6-byte CDB request delivered the well-formed CSW
(signature `0x53425355`, tag 0 matching the posted CBW's tag, status
Good). -/
theorem performSCSI_csw_validation_witness :
    ((6 : Nat) = 6 ∨ (6 : Nat) = 10)
    ∧ ((performSCSIRequestResult 0 true 6 18 goodCSW = Outcome.ok ()
        ↔ (goodCSW.signature = CSW_SIGNATURE
          ∧ goodCSW.tag = (buildCBW 0 true 6 18).tag
          ∧ goodCSW.status = 0))
      ∧ (¬(goodCSW.signature = CSW_SIGNATURE
          ∧ goodCSW.tag = (buildCBW 0 true 6 18).tag
          ∧ goodCSW.status = 0)
        → performSCSIRequestResult 0 true 6 18 goodCSW
            = Outcome.err ErrorCode.io)) :=
  ⟨Or.inl rfl,
   performSCSI_csw_validation 0 true 6 18 goodCSW (Or.inl rfl)⟩

/-- Across a whole request, the total copied by the bulk-in callback is
bounded by the space remaining in the armed result buffer (and is zero
once the buffer is disarmed). -/
theorem runCallbacks_le (ts : List Nat) : ∀ (s : StorState),
    (runCallbacks s ts).2
      ≤ if s.outputArmed then s.outputLen - s.outputFilled else 0 := by
  induction ts with
  | nil =>
    intro s
    show 0 ≤ _
    exact Nat.zero_le _
  | cons t ts ih =>
    intro s
    have h1 := ih (onPipeInCallback s t).1
    show (onPipeInCallback s t).2.1
        + (runCallbacks (onPipeInCallback s t).1 ts).2 ≤ _
    by_cases ha : s.outputArmed = true
    · unfold onPipeInCallback at h1 ⊢
      simp only [ha, if_true] at h1 ⊢
      split_ifs at h1 ⊢ <;> omega
    · have ha' : s.outputArmed = false := by
        cases hb : s.outputArmed
        · rfl
        · exact absurd hb ha
      unfold onPipeInCallback at h1 ⊢
      by_cases hcsw : s.cswArmed = true <;>
        simp [ha', hcsw] at h1 ⊢ <;> omega

/-- C10: while a result buffer is armed, one bulk-in completion of `tlen`
transferred bytes copies exactly `min tlen (us_output_len -
us_output_filled)` bytes into the caller's buffer — the copy is clamped to
the space remaining — and consequently, over any sequence of completed
transfer lengths, a request for `reqLen` bytes never gets more than
`reqLen` bytes written into its result buffer. -/
theorem onpipe_clamp_and_total (s : StorState) (tlen reqLen : Nat)
    (ts : List Nat) (ha : s.outputArmed = true) :
    (onPipeInCallback s tlen).2.1
        = min tlen (s.outputLen - s.outputFilled)
    ∧ (runCallbacks
        { outputArmed := true, outputFilled := 0, outputLen := reqLen,
          cswArmed := true } ts).2 ≤ reqLen := by
  constructor
  · unfold onPipeInCallback
    simp only [ha, if_true]
    show (if tlen > s.outputLen - s.outputFilled
      then s.outputLen - s.outputFilled else tlen) = _
    split_ifs with h <;> omega
  · have h := runCallbacks_le ts
      { outputArmed := true, outputFilled := 0, outputLen := reqLen,
        cswArmed := true }
    simpa using h

/-- Witness for C10: with 10 bytes requested and 3 already filled, a
64-byte bulk-in completion copies only `min 64 (10 - 3) = 7` bytes; and
two 64-byte completions against a fresh 10-byte request write at most 10
bytes in total. -/
theorem onpipe_clamp_and_total_witness :
    demoStor.outputArmed = true
    ∧ ((onPipeInCallback demoStor 64).2.1
        = min 64 (demoStor.outputLen - demoStor.outputFilled)
      ∧ (runCallbacks
          { outputArmed := true, outputFilled := 0, outputLen := 10,
            cswArmed := true } [64, 64]).2 ≤ 10) :=
  ⟨rfl, onpipe_clamp_and_total demoStor 64 10 [64, 64] rfl⟩

end Storage


end Ananas
